import Mathlib

/-!
Shallow embedding of the nucleus safety kernel (Python) in Lean 4.

Source files embedded here:
  src/nucleus/core/scope.py          (path normalization, ancestor check)
  src/nucleus/core/policy_engine.py  (PolicyEngine.evaluate)
  src/nucleus/core/executor.py       (Executor.execute)
  src/nucleus/core/kernel.py         (Kernel.run_plan)
  src/nucleus/bootstrap_tools.py     (build_tool_registry tool definitions)
  src/tools/fs/move.py               (fs.move conflict semantics)
  src/plugins/builtin_desktop/planner.py (BuiltinDesktopPlanner)

Modelling conventions:
  - Python JSON-like values are the inductive type PyVal; a Python dict is an
    association list whose lookup takes the first matching key (Python dicts
    have unique keys, so this is faithful).
  - Python exceptions are Except results; the carried string is the error
    code of the raised typed error.
  - OS-level path resolution (pathlib resolve) is modelled lexically over a
    current working directory, without symlinks and without tilde or
    environment expansion: inputs in all theorems below are plain paths for
    which os.path.expanduser and os.path.expandvars are the identity.
  - urlparse(url).hostname is an explicit oracle parameter
    (hostname : String -> Option String), returning Option.none where the
    Python attribute is None.
  - jsonschema Draft 2020-12 validation is embedded for exactly the schema
    constructs used by the registered tool schemas: type object|string|
    boolean|integer, properties, required, additionalProperties:false.
-/

namespace Nucleus

/-! ### Python string primitives

The Lean core String functions are clones of C code and do not reduce inside
the kernel, so the Python string methods the sources use are embedded here
structurally over the character list of the string. -/

/-- str.startswith. -/
def sStartsWith (s p : String) : Bool := p.data.isPrefixOf s.data

/-- str.endswith. -/
def sEndsWith (s p : String) : Bool := p.data.isSuffixOf s.data

/-- "c in s" for a single character. -/
def sContains (s : String) (c : Char) : Bool := s.data.contains c

/-- str.split(sep) for a one-character separator (the only separators the
sources use). -/
def sSplitOnChar (sep : Char) (s : String) : List String :=
  (s.data.foldr
    (fun c acc =>
      if c = sep then [] :: acc
      else match acc with
        | g :: gs => (c :: g) :: gs
        | [] => [[c]])
    [[]]).map String.mk

/-- str.lower (ASCII; every name in this development is ASCII). -/
def sToLower (s : String) : String := String.mk (s.data.map Char.toLower)

/-- str.strip() of whitespace. -/
def sTrim (s : String) : String :=
  let ws := fun c => c == ' ' || c == '\t' || c == '\n' || c == '\r' || c == '\x0b' || c == '\x0c'
  String.mk (((s.data.dropWhile ws).reverse.dropWhile ws).reverse)

/-- str.replace for one-character needles (the sources replace "\x5c" by "/"
and "/" by "_"). -/
def sReplaceChar (old new : Char) (s : String) : String :=
  String.mk (s.data.map (fun c => if c = old then new else c))

/-- s[n:] character slicing. -/
def sDrop (s : String) (n : Nat) : String := String.mk (s.data.drop n)

/-- "sub in s" for a multi-character needle. -/
def containsSub (s sub : String) : Bool :=
  s.data.tails.any (fun t => sub.data.isPrefixOf t)

/-- Python string comparison: lexicographic by code point. -/
def charListLe : List Char → List Char → Bool
  | [], _ => true
  | _ :: _, [] => false
  | a :: as, b :: bs => if a = b then charListLe as bs else decide (a < b)

def strLe (a b : String) : Bool := charListLe a.data b.data

/-- Stable insertion of x after every element le-below-or-equal to it. -/
def insertBy (le : α → α → Bool) (x : α) : List α → List α
  | [] => [x]
  | y :: ys => if le y x then y :: insertBy le x ys else x :: y :: ys

/-- Python sorted(xs, key=...) as a stable insertion sort. -/
def stableSortBy (le : α → α → Bool) (xs : List α) : List α :=
  xs.foldl (fun acc x => insertBy le x acc) []

/-- Python JSON-like runtime values (None, bool, int, str, list, dict). -/
inductive PyVal where
  | none
  | bool (b : Bool)
  | int (n : Int)
  | str (s : String)
  | list (xs : List PyVal)
  | dict (kvs : List (String × PyVal))
  deriving Repr, Inhabited

/-- Python d.get(k): first binding of k, or None when absent or when the
value is not a dict. -/
def dget : PyVal → String → PyVal
  | PyVal.dict kvs, k => (go kvs k)
  | _, _ => PyVal.none
where go : List (String × PyVal) → String → PyVal
  | [], _ => PyVal.none
  | (l, v) :: rest, k => if l = k then v else go rest k

/-- Python d.get(k, default). -/
def dgetD (d : PyVal) (k : String) (dflt : PyVal) : PyVal :=
  match d with
  | PyVal.dict kvs => goD kvs k dflt
  | _ => dflt
where goD : List (String × PyVal) → String → PyVal → PyVal
  | [], _, dflt => dflt
  | (l, v) :: rest, k, dflt => if l = k then v else goD rest k dflt

/-- Python truthiness (bool(v)). -/
def pyTruthy : PyVal → Bool
  | PyVal.none => false
  | PyVal.bool b => b
  | PyVal.int n => n != 0
  | PyVal.str s => s ≠ ""
  | PyVal.list xs => !xs.isEmpty
  | PyVal.dict kvs => !kvs.isEmpty

def PyVal.isDict : PyVal → Bool
  | PyVal.dict _ => true
  | _ => false

def PyVal.isList : PyVal → Bool
  | PyVal.list _ => true
  | _ => false

/-- isinstance(v, str) together with the value. -/
def PyVal.asStr : PyVal → Option String
  | PyVal.str s => some s
  | _ => Option.none

/-- isinstance(v, str) and v (non-empty string). -/
def isNonEmptyStr : PyVal → Bool
  | PyVal.str s => s ≠ ""
  | _ => false

def strOf : PyVal → String
  | PyVal.str s => s
  | _ => ""

/-- v == "s" for a Python string literal comparison. -/
def eqStrVal (v : PyVal) (s : String) : Bool :=
  match v with
  | PyVal.str t => t = s
  | _ => false

/-- v is False (Python identity check against the False singleton). -/
def isFalseVal : PyVal → Bool
  | PyVal.bool b => !b
  | _ => false

/-- v is None. -/
def isNoneVal : PyVal → Bool
  | PyVal.none => true
  | _ => false

def listOf : PyVal → List PyVal
  | PyVal.list xs => xs
  | _ => []

/-! ## Path model (src/nucleus/core/scope.py)

A canonical absolute path is a list of components.  resolveAbs models
Path(p).resolve() for inputs without symlinks, tilde or env vars: relative
paths are taken from the working directory cwd, and "." / ".." / empty
components are folded away.  pathStr models str(Path): "/" for the root,
otherwise "/" followed by the components joined with "/". -/

def foldComps : List String → List String → List String
  | acc, [] => acc
  | acc, c :: rest =>
    if c = "" ∨ c = "." then foldComps acc rest
    else if c = ".." then foldComps acc.dropLast rest
    else foldComps (acc ++ [c]) rest

/-- Path(os.path.expandvars(os.path.expanduser(p))).resolve() for plain
inputs: lexical normalization against the working directory. -/
def resolveAbs (cwd : List String) (p : String) : List String :=
  let comps := sSplitOnChar '/' p
  if sStartsWith p "/" then foldComps [] comps else foldComps cwd comps

/-- str() of a resolved path. -/
def pathStr (cs : List String) : String :=
  "/" ++ String.intercalate "/" cs

/-- scope.normalize_roots: keep the non-empty strings, normalize each. -/
def normalize_roots (cwd : List String) (fs_roots : List PyVal) : List (List String) :=
  (fs_roots.filterMap PyVal.asStr).filter (fun r => r ≠ "") |>.map (resolveAbs cwd)

/-- scope.is_within_any_root: the canonicalized path equals a root or the
string form extends the root string by a separator. -/
def is_within_any_root (cwd : List String) (path_str : String) (roots : List (List String)) : Bool :=
  let p := pathStr (resolveAbs cwd path_str)
  roots.any (fun root => p = pathStr root ∨ sStartsWith p (pathStr root ++ "/"))

/-! ## Policy engine (src/nucleus/core/policy_engine.py) -/

/-- PolicyResult dataclass. -/
structure PolicyResult where
  decision : String
  reason_codes : List String
  summary : Option String := Option.none
  deriving Repr, DecidableEq

/-- RuntimeContext (src/nucleus/core/runtime_context.py); only the fields
policy evaluation and execution read. -/
structure RuntimeContext where
  run_id : String := "run"
  dry_run : Bool := true
  strict_dry_run : Bool := true
  allow_destructive : Bool := false
  deriving Repr, DecidableEq

/-- A tool registry: tool_id to ToolDef (the def is a Python dict). -/
def Registry := List (String × PyVal)

/-- ToolRegistry.get. -/
def regGet : Registry → String → Option PyVal
  | [], _ => Option.none
  | (k, v) :: rest, tid => if k = tid then some v else regGet rest tid

def deny (code : String) (s : String) : PolicyResult :=
  { decision := "deny", reason_codes := [code], summary := some s }

/-- The network-allowlist loop of PolicyEngine.evaluate: pat == "*", or
pat.startswith("*.") and host.endswith(pat[1:]), or host == pat. -/
def hostAllowed (allowlist : List String) (host : String) : Bool :=
  allowlist.any (fun pat =>
    pat = "*" ∨ (sStartsWith pat "*." ∧ sEndsWith host (sDrop pat 1)) ∨ host = pat)

/-- The network block of the per-step policy loop (lines 78-128 of
policy_engine.py): applies only when the tool declares side_effects ==
"network".  Returns the first denial, if any. -/
def netCheck (hostname : String → Option String) (allow_network : Bool)
    (allowlist : List String) (tool_call : PyVal) (tool_def : PyVal)
    (tool_id : String) : Option PolicyResult :=
  if ¬ eqStrVal (dget tool_def "side_effects") "network" then Option.none
  else if ¬ allow_network then
    some (deny "scope.network_denied"
      ("Network tool is denied by scope.allow_network=false: " ++ tool_id))
  else if allowlist = [] then
    some (deny "scope.network_allowlist_missing"
      "Network is enabled but scope.network_hosts_allowlist is empty")
  else
    let args_obj := dgetD tool_call "args" (PyVal.dict [])
    if ¬ args_obj.isDict then
      some (deny "plan.args_invalid" "Step.tool.args must be an object")
    else
      let url := if pyTruthy (dget args_obj "url") then dget args_obj "url"
                 else dget args_obj "endpoint"
      if ¬ isNonEmptyStr url then
        some (deny "scope.network_missing_url"
          ("Network tool requires args.url or args.endpoint to enforce allowlist: " ++ tool_id))
      else
        match hostname (strOf url) with
        | Option.none =>
          some (deny "scope.network_invalid_url"
            ("Invalid URL for network tool allowlist enforcement: " ++ tool_id))
        | some host =>
          if host = "" then
            some (deny "scope.network_invalid_url"
              ("Invalid URL for network tool allowlist enforcement: " ++ tool_id))
          else if ¬ hostAllowed allowlist host then
            some (deny "scope.network_host_denied"
              ("Network host is not in allowlist: " ++ host))
          else Option.none

/-- The filesystem-scope block of the per-step policy loop (lines 130-149):
applies only when tool_id starts with "fs.". -/
def fsCheck (cwd : List String) (roots : List (List String)) (tool_call : PyVal)
    (tool_id : String) : Option PolicyResult :=
  if ¬ sStartsWith tool_id "fs." then Option.none
  else
    let args_obj := dgetD tool_call "args" (PyVal.dict [])
    if ¬ args_obj.isDict then
      some (deny "plan.args_invalid" "Step.tool.args must be an object")
    else
      let paths_to_check :=
        (["path", "from", "to"].map (dget args_obj)).filter isNonEmptyStr |>.map strOf
      match paths_to_check.find? (fun p => ¬ is_within_any_root cwd p roots) with
      | some p => some (deny "scope.out_of_bounds" ("Tool path outside declared scope: " ++ p))
      | Option.none => Option.none

/-- The body of the per-step loop of PolicyEngine.evaluate (lines 64-170):
the first denial for this step, or none when the step passes every rule. -/
def stepDeny (cwd : List String) (hostname : String → Option String)
    (reg : Registry) (ctx : RuntimeContext) (roots : List (List String))
    (allow_network : Bool) (allowlist : List String) (step : PyVal) :
    Option PolicyResult :=
  if ¬ step.isDict then some (deny "plan.step_invalid" "Step must be an object")
  else
    let tool_call := dget step "tool"
    if ¬ tool_call.isDict then some (deny "plan.tool_missing" "Step.tool is required")
    else
      let tool_id_v := dget tool_call "tool_id"
      if ¬ isNonEmptyStr tool_id_v then
        some (deny "plan.tool_id_invalid" "tool_id is required")
      else
        let tool_id := strOf tool_id_v
        match regGet reg tool_id with
        | Option.none => some (deny "tool.unknown" ("Unknown tool: " ++ tool_id))
        | some tool_def =>
          match netCheck hostname allow_network allowlist tool_call tool_def tool_id with
          | some r => some r
          | Option.none =>
            match fsCheck cwd roots tool_call tool_id with
            | some r => some r
            | Option.none =>
              if pyTruthy (dget tool_def "destructive") ∧ ¬ ctx.allow_destructive then
                some (deny "tool.destructive_denied"
                  ("Destructive tool is denied by default: " ++ tool_id))
              else if ctx.dry_run ∧ ctx.strict_dry_run ∧
                  ¬ pyTruthy (dgetD tool_def "supports_dry_run" (PyVal.bool false)) then
                some (deny "dry_run.not_supported" ("Tool does not support dry-run: " ++ tool_id))
              else if ctx.dry_run ∧ isFalseVal (dget tool_call "dry_run_ok") then
                some (deny "dry_run.step_not_marked_ok"
                  ("Step not marked dry-run compatible: " ++ tool_id))
              else Option.none

/-- The PolicyResult returned when every rule passes (policy_engine.py line
174). -/
def allowResult : PolicyResult :=
  { decision := "allow", reason_codes := ["scope.ok", "tools.ok"],
    summary := some "Allowed by default policy" }

/-- A denial with exactly one reason code. -/
def isSingleDeny (r : PolicyResult) : Prop :=
  r.decision = "deny" ∧ ∃ c, r.reason_codes = [c]

/-- The for-loop over steps: first denial wins. -/
def stepsDeny (cwd : List String) (hostname : String → Option String)
    (reg : Registry) (ctx : RuntimeContext) (roots : List (List String))
    (allow_network : Bool) (allowlist : List String) :
    List PyVal → Option PolicyResult
  | [] => Option.none
  | step :: rest =>
    match stepDeny cwd hostname reg ctx roots allow_network allowlist step with
    | some r => some r
    | Option.none => stepsDeny cwd hostname reg ctx roots allow_network allowlist rest

/-- PolicyEngine.evaluate (policy_engine.py lines 34-174).  The plan argument
is a Python dict, given as its bindings. -/
def evaluate (cwd : List String) (hostname : String → Option String)
    (reg : Registry) (ctx : RuntimeContext) (plan : PyVal) : PolicyResult :=
  let intent := dget plan "intent"
  if ¬ intent.isDict then deny "plan.intent_missing" "Plan is missing intent"
  else
    let scope := dget intent "scope"
    if ¬ (scope.isDict ∧ (dget scope "fs_roots").isList ∧ (listOf (dget scope "fs_roots")).length ≥ 1) then
      deny "scope.missing" "Explicit scope is required"
    else
      let roots := normalize_roots cwd (listOf (dgetD scope "fs_roots" (PyVal.list [])))
      if roots.length < 1 then deny "scope.invalid" "Scope fs_roots must be valid paths"
      else
        let allow_network := pyTruthy (dgetD scope "allow_network" (PyVal.bool false))
        let nhal0 := dgetD scope "network_hosts_allowlist" (PyVal.list [])
        let nhal := if isNoneVal nhal0 then PyVal.list [] else nhal0
        if ¬ (nhal.isList ∧ (listOf nhal).all isNonEmptyStr) then
          deny "scope.invalid"
            "Scope network_hosts_allowlist must be an array of non-empty strings when provided"
        else
          let allowlist := (listOf nhal).map strOf
          let steps := dget plan "steps"
          if ¬ (steps.isList ∧ (listOf steps).length ≥ 1) then
            deny "plan.steps_missing" "Plan must have steps"
          else
            match stepsDeny cwd hostname reg ctx roots allow_network allowlist (listOf steps) with
            | some r => r
            | Option.none => allowResult

/-! ## Tool argument schemas (src/nucleus/bootstrap_tools.py)

The registered schemas are flat: every property sub-schema constrains only
"type".  schemaValidate embeds jsonschema.Draft202012Validator(...).validate
for exactly these constructs (type object|string|boolean|integer, properties
with type-only sub-schemas, required, additionalProperties:false); it returns
true when validation raises nothing. -/

def hasKey : PyVal → String → Bool
  | PyVal.dict kvs, k => kvs.any (fun kv => kv.1 = k)
  | _, _ => false

def PyVal.isStr : PyVal → Bool
  | PyVal.str _ => true
  | _ => false

def PyVal.isBool : PyVal → Bool
  | PyVal.bool _ => true
  | _ => false

def PyVal.isInt : PyVal → Bool
  | PyVal.int _ => true
  | _ => false

/-- The "type" keyword. -/
def typeCheck (t : PyVal) (v : PyVal) : Bool :=
  match t with
  | PyVal.str "object" => v.isDict
  | PyVal.str "string" => v.isStr
  | PyVal.str "boolean" => v.isBool
  | PyVal.str "integer" => v.isInt
  | _ => true

/-- Draft 2020-12 validation restricted to the constructs of the registered
tool schemas. -/
def schemaValidate (schema v : PyVal) : Bool :=
  typeCheck (dget schema "type") v &&
  (match dget schema "properties", v with
   | PyVal.dict props, PyVal.dict kvs =>
     kvs.all (fun kv =>
       match dget (PyVal.dict props) kv.1 with
       | PyVal.none => true
       | sub => typeCheck (dget sub "type") kv.2)
   | _, _ => true) &&
  (match dget schema "required" with
   | PyVal.list req => req.all (fun r =>
       match r with
       | PyVal.str k => hasKey v k
       | _ => true)
   | _ => true) &&
  (match dget schema "additionalProperties", v with
   | PyVal.bool false, PyVal.dict kvs =>
     kvs.all (fun kv => hasKey (dget schema "properties") kv.1)
   | _, _ => true)

/-- One registered ToolDef as built by reg_tool in build_tool_registry. -/
def regToolDef (tool_id title side_effects : String) (supports_dry_run : Bool)
    (args_schema : PyVal) : PyVal :=
  PyVal.dict [
    ("tool_id", PyVal.str tool_id),
    ("version", PyVal.str "0.1.0"),
    ("title", PyVal.str title),
    ("description", PyVal.str ""),
    ("side_effects", PyVal.str side_effects),
    ("destructive", PyVal.bool false),
    ("requires_explicit_allow", PyVal.bool false),
    ("supports_dry_run", PyVal.bool supports_dry_run),
    ("args_schema", args_schema)]

/-- A flat property list schema with additionalProperties:false. -/
def objSchema (props : List (String × String)) (required : List String) : PyVal :=
  PyVal.dict [
    ("type", PyVal.str "object"),
    ("additionalProperties", PyVal.bool false),
    ("properties", PyVal.dict (props.map (fun kv =>
      (kv.1, PyVal.dict [("type", PyVal.str kv.2)])))),
    ("required", PyVal.list (required.map PyVal.str))]

/-- The args_schema registered for fs.move (bootstrap_tools.py lines 70-82):
only from, to and overwrite, with additionalProperties:false. -/
def fsMoveArgsSchema : PyVal :=
  objSchema [("from", "string"), ("to", "string"), ("overwrite", "boolean")] ["from", "to"]

/-- build_tool_registry: the built-in tool definitions, in registration
order. -/
def bootstrapRegistry : Registry := [
  ("fs.list", regToolDef "fs.list" "List directory entries" "filesystem" true
    (objSchema [("path", "string")] ["path"])),
  ("fs.stat", regToolDef "fs.stat" "Stat a path" "filesystem" true
    (objSchema [("path", "string")] ["path"])),
  ("fs.mkdir", regToolDef "fs.mkdir" "Create a directory" "filesystem" true
    (objSchema [("path", "string"), ("parents", "boolean"), ("exist_ok", "boolean")] ["path"])),
  ("fs.move", regToolDef "fs.move" "Move/rename a path" "filesystem" true fsMoveArgsSchema),
  ("notify.send", regToolDef "notify.send" "Send a notification" "notification" true
    (objSchema [("message", "string")] ["message"])),
  ("app.open", regToolDef "app.open" "Open app/file (contract only)" "app" true
    (objSchema [("target", "string")] ["target"])),
  ("app.quit", regToolDef "app.quit" "Quit app (contract only)" "app" true
    (objSchema [("app_id", "string")] ["app_id"]))]

/-! ## Trace events, Executor.execute and Kernel.run_plan -/

/-- A trace event, keeping the fields the claims inspect.  Events are listed
in emission order. -/
inductive TEvent where
  | intent_received
  | plan_generated
  | policy_decision (decision : String) (reason_codes : List String)
  | step_started (step_id : String)
  | step_finished (step_id : String)
  | step_denied
  | error
  | run_finished
  deriving Repr, DecidableEq

/-- Outcome of running steps: emitted events, the (tool_id, args) pairs for
which a tool implementation was invoked, and the raised error code or the
accumulated results. -/
structure ExecOut where
  events : List TEvent
  calls : List (String × PyVal)
  result : Except String (List PyVal)
  deriving Inhabited

/-- The per-step loop of Executor.execute (executor.py lines 41-117).
callTool models ToolRegistry.call of the registered implementation: an
Except.error is the implementation raising. -/
def execSteps (reg : Registry) (callTool : String → PyVal → Bool → Except String PyVal)
    (dry_run : Bool) : List PyVal → ExecOut
  | [] => { events := [], calls := [], result := Except.ok [] }
  | step :: rest =>
    if ¬ step.isDict then
      { events := [], calls := [], result := Except.error "plan.step_invalid" }
    else
      let step_id_v := dget step "step_id"
      if ¬ isNonEmptyStr step_id_v then
        { events := [], calls := [], result := Except.error "plan.step_invalid" }
      else
        let step_id := strOf step_id_v
        let tool_call := dget step "tool"
        if ¬ tool_call.isDict then
          { events := [], calls := [], result := Except.error "plan.step_invalid" }
        else
          let tool_id_v := dget tool_call "tool_id"
          let args := dget tool_call "args"
          if ¬ isNonEmptyStr tool_id_v then
            { events := [], calls := [], result := Except.error "plan.step_invalid" }
          else if ¬ args.isDict then
            { events := [], calls := [], result := Except.error "plan.step_invalid" }
          else
            let tool_id := strOf tool_id_v
            match regGet reg tool_id with
            | Option.none =>
              { events := [TEvent.step_denied], calls := [],
                result := Except.error "tool.unknown" }
            | some tool_def =>
              let args_schema := dgetD tool_def "args_schema" (PyVal.dict [])
              if ¬ schemaValidate args_schema args then
                { events := [TEvent.step_denied], calls := [],
                  result := Except.error "tool.args_invalid" }
              else
                match callTool tool_id args dry_run with
                | Except.error _ =>
                  { events := [TEvent.step_started step_id, TEvent.error],
                    calls := [(tool_id, args)],
                    result := Except.error "tool.error" }
                | Except.ok out =>
                  let res := execSteps reg callTool dry_run rest
                  { events := TEvent.step_started step_id :: TEvent.step_finished step_id ::
                      res.events,
                    calls := (tool_id, args) :: res.calls,
                    result := res.result.map (fun rs =>
                      PyVal.dict [("step_id", PyVal.str step_id),
                        ("tool_id", PyVal.str tool_id), ("output", out)] :: rs) }

/-- Executor.execute (executor.py lines 23-120). -/
def execute (reg : Registry) (callTool : String → PyVal → Bool → Except String PyVal)
    (ctx : RuntimeContext) (plan : PyVal) : ExecOut :=
  if ¬ plan.isDict then
    { events := [], calls := [], result := Except.error "plan.invalid" }
  else if ¬ isNonEmptyStr (dget plan "plan_id") then
    { events := [], calls := [], result := Except.error "plan.invalid" }
  else
    let plan_id := strOf (dget plan "plan_id")
    let steps := dget plan "steps"
    if ¬ (steps.isList ∧ (listOf steps).length ≥ 1) then
      { events := [], calls := [], result := Except.error "plan.invalid" }
    else
      let res := execSteps reg callTool ctx.dry_run (listOf steps)
      match res.result with
      | Except.error e =>
        { events := TEvent.plan_generated :: res.events, calls := res.calls,
          result := Except.error e }
      | Except.ok rs =>
        { events := TEvent.plan_generated :: res.events ++ [TEvent.run_finished],
          calls := res.calls,
          result := Except.ok [PyVal.dict [("plan_id", PyVal.str plan_id),
            ("results", PyVal.list rs)]] }

/-- Kernel.run_plan (kernel.py lines 48-99).  schemaErrors models
ContractStore.validate("plan.schema.json", plan): the list of error strings
returned by the contract validator. -/
def run_plan (cwd : List String) (hostname : String → Option String)
    (reg : Registry) (schemaErrors : PyVal → List String)
    (callTool : String → PyVal → Bool → Except String PyVal)
    (ctx : RuntimeContext) (plan : PyVal) : ExecOut :=
  let ev0 := [TEvent.intent_received]
  if ¬ (schemaErrors plan).isEmpty then
    { events := ev0 ++ [TEvent.error], calls := [],
      result := Except.error "plan.schema_invalid" }
  else
    let result := evaluate cwd hostname reg ctx plan
    let ev1 := ev0 ++ [TEvent.policy_decision result.decision result.reason_codes]
    if result.decision ≠ "allow" then
      { events := ev1 ++ [TEvent.step_denied], calls := [],
        result := Except.error "policy.denied" }
    else
      let ex := execute reg callTool ctx plan
      { events := ev1 ++ ex.events, calls := ex.calls, result := ex.result }

/-! ## fs.move (src/tools/fs/move.py)

Paths handled by the move tool are pathlib paths after expand_user_path; we
model them as component lists (Pth), with the pathlib constructor dropping
empty and "." components.  Filesystem existence at resolution time is the
oracle ex : Pth -> Bool (the implementation re-reads existence, but against
an unchanging filesystem both reads agree).  The mkdir of the destination
parent is not modelled; it has no bearing on the name-resolution claims. -/

abbrev Pth := List String

/-- pathlib parsing of a plain path string into components. -/
def parsePath (s : String) : Pth :=
  (sSplitOnChar '/' s).filter (fun c => c ≠ "" ∧ c ≠ ".")

/-- Path.name: the final component ("" for the root). -/
def pthName (p : Pth) : String := p.getLastD ""

/-- Path.parent components. -/
def pthParent (p : Pth) : Pth := p.dropLast

/-- The index of the last dot in the character list, if any. -/
def lastDotIdx (cs : List Char) : Option Nat :=
  ((cs.enum.filter (fun ci => ci.2 = '.')).getLast?).map (fun ci => ci.1)

/-- CPython pathlib stem/suffix of a file name: split at the last dot when
it is neither the first nor the last character; otherwise the suffix is
empty (".bashrc" has stem ".bashrc"). -/
def stemSuffix (name : String) : String × String :=
  let cs := name.data
  match lastDotIdx cs with
  | some i =>
    if 0 < i ∧ i < cs.length - 1 then (String.mk (cs.take i), String.mk (cs.drop i))
    else (name, "")
  | Option.none => (name, "")

/-- The candidate dst.parent / (stem ++ "(i)" ++ suffix). -/
def suffixCandidate (dst : Pth) (i : Nat) : Pth :=
  let ss := stemSuffix (pthName dst)
  pthParent dst ++ [ss.1 ++ "(" ++ toString i ++ ")" ++ ss.2]

/-- The search loop of _with_suffix_increment: try i, i+1, ... for fuel
attempts and return the first free index. -/
def findFree (ex : Pth → Bool) (dst : Pth) : Nat → Nat → Option Nat
  | _, 0 => Option.none
  | i, fuel + 1 =>
    if ¬ ex (suffixCandidate dst i) then some i else findFree ex dst (i + 1) fuel

/-- _with_suffix_increment (move.py lines 8-26): first non-existing
candidate for i in range(1, max_tries + 1), else FileExistsError. -/
def with_suffix_increment (ex : Pth → Bool) (dst : Pth) (max_tries : Nat := 10000) :
    Except String Pth :=
  match findFree ex dst 1 max_tries with
  | some i => Except.ok (suffixCandidate dst i)
  | Option.none => Except.error "FileExistsError"

/-- The outcome of fs.move run: the returned value plus the rename that was
performed, if any. -/
structure MoveOut where
  output : PyVal
  renamed : Option (Pth × Pth)
  deriving Inhabited

/-- fs.move run (move.py lines 29-108). -/
def fs_move_run (ex : Pth → Bool) (args : PyVal) (dry_run : Bool) :
    Except String MoveOut :=
  let src_raw := dget args "from"
  if ¬ isNonEmptyStr src_raw then Except.error "ValueError" else
  let dst_raw := dget args "to"
  if ¬ isNonEmptyStr dst_raw then Except.error "ValueError" else
  let oc0 := dgetD args "on_conflict" (PyVal.str "error")
  let ow := dgetD args "overwrite" (PyVal.bool false)
  let oc1 := if ow.isBool ∧ pyTruthy ow then PyVal.str "overwrite" else oc0
  if ¬ (eqStrVal oc1 "error" ∨ eqStrVal oc1 "overwrite" ∨ eqStrVal oc1 "skip" ∨
      eqStrVal oc1 "suffix_increment") then Except.error "ValueError" else
  let oc := strOf oc1
  let src := parsePath (strOf src_raw)
  let dst := parsePath (strOf dst_raw)
  (if ex dst ∧ oc = "suffix_increment" then with_suffix_increment ex dst
   else Except.ok dst).bind (fun resolved_dst =>
    if dry_run then
      Except.ok
        { output := PyVal.dict [
            ("from", PyVal.str (pathStr src)),
            ("to", PyVal.str (pathStr resolved_dst)),
            ("dry_run", PyVal.bool true),
            ("src_exists", PyVal.bool (ex src)),
            ("dst_exists", PyVal.bool (ex dst)),
            ("on_conflict", PyVal.str oc),
            ("resolved_to", PyVal.str (pathStr resolved_dst)),
            ("resolved_dst_exists", PyVal.bool (ex resolved_dst)),
            ("would_move", PyVal.bool (¬ (ex dst ∧ oc = "skip") ∧ ¬ (ex dst ∧ oc = "error"))),
            ("would_skip", PyVal.bool (ex dst ∧ oc = "skip")),
            ("would_error", PyVal.bool (ex dst ∧ oc = "error")),
            ("would_overwrite", PyVal.bool (ex dst ∧ oc = "overwrite")),
            ("would_suffix_increment", PyVal.bool (ex dst ∧ oc = "suffix_increment")),
            ("expected_effects", PyVal.list [PyVal.dict [
              ("kind", PyVal.str "fs_move"),
              ("summary", PyVal.str ("Move " ++ pathStr src ++ " -> " ++
                pathStr resolved_dst ++ " (on_conflict=" ++ oc ++ ")")),
              ("resources", PyVal.list [PyVal.str (pathStr src),
                PyVal.str (pathStr resolved_dst)])]])],
          renamed := Option.none }
    else if ¬ ex src then Except.error "FileNotFoundError"
    else
      -- the commit path re-resolves; with an unchanging ex this equals
      -- resolved_dst, so the bind above already carries it
      if ex dst ∧ oc = "skip" then
        Except.ok
          { output := PyVal.dict [
              ("from", PyVal.str (pathStr src)), ("to", PyVal.str (pathStr dst)),
              ("dry_run", PyVal.bool false), ("skipped", PyVal.bool true),
              ("reason", PyVal.str "dst_exists")],
            renamed := Option.none }
      else if ex dst ∧ oc = "error" then Except.error "FileExistsError"
      else
        Except.ok
          { output := PyVal.dict [
              ("from", PyVal.str (pathStr src)),
              ("to", PyVal.str (pathStr resolved_dst)),
              ("dry_run", PyVal.bool false), ("skipped", PyVal.bool false)],
            renamed := some (src, resolved_dst) })

/-! ## BuiltinDesktopPlanner (src/plugins/builtin_desktop/planner.py)

Oracles:
  expandUser : os.path.expanduser (identity on plain paths);
  loadCfg    : _load_rules_config (file read + YAML parse + schema check;
               an Except.error is the raised ValidationError code);
  regexSearch pat name : re.search(pat, name) is not None, False when re
               raises (the source swallows regex errors);
  now        : int(time.time()).
fnmatchcase is embedded for patterns made of literal characters and the
wildcards * and ? (no bracket classes appear in this repository). -/

/-- fnmatch.fnmatchcase for patterns of literals, * and ?: * matches any
run of characters (any suffix continuation), ? exactly one. -/
def globMatch : List Char → List Char → Bool
  | [], cs => cs.isEmpty
  | '*' :: ps, cs => cs.tails.any (fun t => globMatch ps t)
  | '?' :: ps, cs =>
    match cs with
    | [] => false
    | _ :: rest => globMatch ps rest
  | p :: ps, cs =>
    match cs with
    | [] => false
    | c :: rest => (p = c) && globMatch ps rest

def fnmatchcase (name pat : String) : Bool := globMatch pat.data name.data

/-- The local helper _ext: lowercase extension after the last dot, "" when
there is no dot or the name ends with a dot. -/
def extOf (name : String) : String :=
  let lower := sToLower name
  if ¬ sContains lower '.' ∨ sEndsWith lower "." then ""
  else (sSplitOnChar '.' lower).getLastD ""

/-- The local helper should_skip. -/
def should_skip (exclude ignore_patterns : List String) (name : String) : Bool :=
  if name = "" then true
  else if sStartsWith name "." then true
  else (exclude ++ ignore_patterns).any (fun pat => fnmatchcase name pat)

/-- The local helper approx_mime_prefix (renamed approxMime here). -/
def approxMime (name : String) : Option String :=
  let e := extOf name
  if e ∈ ["png", "jpg", "jpeg", "gif", "webp", "heic", "svg"] then some "image/"
  else if e ∈ ["mp4", "mov", "mkv", "webm"] then some "video/"
  else if e ∈ ["mp3", "wav", "flac", "m4a"] then some "audio/"
  else if e ∈ ["pdf", "txt", "md", "rtf", "doc", "docx", "ppt", "pptx", "xls",
      "xlsx", "csv"] then some "application/"
  else Option.none

/-- isinstance(v, int) with Python booleans counting as ints. -/
def asIntLike : PyVal → Option Int
  | PyVal.int n => some n
  | PyVal.bool b => some (if b then 1 else 0)
  | _ => Option.none

/-- The local helper match_atom. -/
def match_atom (regexSearch : String → String → Bool) (now : Int)
    (atom entry : PyVal) : Bool :=
  let name := if pyTruthy (dget entry "name") then strOf (dget entry "name") else ""
  if hasKey atom "filename_regex" then
    regexSearch (strOf (dget atom "filename_regex")) name
  else if hasKey atom "ext_in" then
    match dget atom "ext_in" with
    | PyVal.list exts =>
      let e := extOf name
      let normalized := (exts.filterMap PyVal.asStr).filter (fun x => x ≠ "")
        |>.map (fun x => String.mk ((sToLower x).data.dropWhile (fun c => c = '.')))
      e ∈ normalized
    | _ => false
  else if hasKey atom "mime_prefix" then
    if ¬ isNonEmptyStr (dget atom "mime_prefix") then false
    else
      let want := strOf (dget atom "mime_prefix")
      match approxMime name with
      | some got => sStartsWith got want
      | Option.none => false
  else if hasKey atom "created_within_days" then
    match asIntLike (dget atom "created_within_days") with
    | some days =>
      if days < 0 then false
      else
        match asIntLike (dget entry "mtime") with
        | some mtime => now - mtime ≤ days * 86400
        | Option.none => false
    | Option.none => false
  else false

/-- The local helper match_rule. -/
def match_rule (regexSearch : String → String → Bool) (now : Int)
    (rule entry : PyVal) : Bool :=
  let m := dgetD rule "match" (PyVal.dict [])
  if ¬ m.isDict then false
  else
    let any_atoms := match dgetD m "any" (PyVal.list []) with
      | PyVal.list xs => xs
      | _ => []
    let all_atoms := match dgetD m "all" (PyVal.list []) with
      | PyVal.list xs => xs
      | _ => []
    let any_ok := if any_atoms.isEmpty then true
      else (any_atoms.filter PyVal.isDict).any (fun a => match_atom regexSearch now a entry)
    let all_ok := if all_atoms.isEmpty then true
      else (all_atoms.filter PyVal.isDict).all (fun a => match_atom regexSearch now a entry)
    any_ok && all_ok

/-- The local helper resolve_move_to. -/
def resolve_move_to (folders_map : PyVal) (move_to : String) : String :=
  if hasKey folders_map move_to ∧ isNonEmptyStr (dget folders_map move_to) then
    strOf (dget folders_map move_to)
  else move_to

/-- The local helper validate_dest_subpath (planner.py lines 533-560);
Except.error carries the ValidationError code. -/
def validate_dest_subpath (dest_sub : String) : Except String String :=
  if sTrim dest_sub = "" then Except.error "config.invalid"
  else
    let norm := sReplaceChar '\\' '/' dest_sub
    let parts := (sSplitOnChar '/' norm).filter (fun p => p ≠ "")
    if parts.isEmpty then Except.error "config.invalid"
    else if sStartsWith norm "/" ∨ sStartsWith norm "../" ∨
        containsSub ("/" ++ norm ++ "/") "/../" ∨ norm = ".." then
      Except.error "config.invalid"
    else if parts.any (fun p => p = "." ∨ p = "..") then Except.error "config.invalid"
    else Except.ok (String.intercalate "/" parts)

/-- Python format i:04d (pad with zeros to width 4). -/
def pad4 (i : Nat) : String :=
  let s := toString i
  if s.length ≥ 4 then s else String.mk (List.replicate (4 - s.length) '0') ++ s

/-- The per-entry body of _build_moves_from_entries_config, looping with the
1-based enumerate index; returns the move steps and the destination
directories they require (with duplicates, in encounter order). -/
def buildMovesLoop (regexSearch : String → String → Bool) (now : Int)
    (root_path staging_dir : String) (ignore_patterns : List String)
    (collision_strategy : String) (folders_map : PyVal) (unmatched_move_to : String)
    (rules : List PyVal) (include_dirs : Bool) (exclude : List String) :
    Nat → List PyVal → Except String (List PyVal × List String)
  | _, [] => Except.ok ([], [])
  | i, item0 :: rest =>
    let cont := buildMovesLoop regexSearch now root_path staging_dir ignore_patterns
      collision_strategy folders_map unmatched_move_to rules include_dirs exclude
      (i + 1) rest
    let item := if item0.isDict then some item0
      else match item0 with
        | PyVal.str s => some (PyVal.dict [("name", PyVal.str s),
            ("is_file", PyVal.bool true), ("is_dir", PyVal.bool false)])
        | _ => Option.none
    match item with
    | Option.none => cont
    | some item =>
      let name_v := dget item "name"
      if ¬ isNonEmptyStr name_v then cont
      else
        let name := strOf name_v
        let is_file := pyTruthy (dgetD item "is_file" (PyVal.bool false))
        let is_dir := pyTruthy (dgetD item "is_dir" (PyVal.bool false))
        if should_skip exclude ignore_patterns name then cont
        else if is_dir ∧ ¬ include_dirs then cont
        else if ¬ is_file ∧ ¬ is_dir then cont
        else
          let dest_sub0 :=
            if is_dir then "Folders"
            else
              match rules.find? (fun r => r.isDict ∧
                  match_rule regexSearch now r item) with
              | some r =>
                let a := dgetD r "action" (PyVal.dict [])
                if a.isDict ∧ isNonEmptyStr (dget a "move_to") then
                  resolve_move_to folders_map (strOf (dget a "move_to"))
                else resolve_move_to folders_map unmatched_move_to
              | Option.none => resolve_move_to folders_map unmatched_move_to
          (validate_dest_subpath dest_sub0).bind (fun dest_sub =>
            let dest_dir := staging_dir ++ "/" ++ dest_sub
            let src := root_path ++ "/" ++ name
            let dst := dest_dir ++ "/" ++ name
            let move_step := PyVal.dict [
              ("step_id", PyVal.str ("commit_move_" ++ pad4 i)),
              ("title", PyVal.str ("Move: " ++ name ++ " -> " ++ dest_sub)),
              ("phase", PyVal.str "commit"),
              ("tool", PyVal.dict [
                ("tool_id", PyVal.str "fs.move"),
                ("args", PyVal.dict [("from", PyVal.str src), ("to", PyVal.str dst),
                  ("on_conflict", PyVal.str collision_strategy)]),
                ("dry_run_ok", PyVal.bool true)]),
              ("expected_effects", PyVal.list [PyVal.dict [
                ("kind", PyVal.str "fs_move"),
                ("summary", PyVal.str ("Move " ++ name ++ " -> " ++ dest_sub ++
                  " (on_conflict=" ++ collision_strategy ++ ")")),
                ("resources", PyVal.list [PyVal.str src, PyVal.str dst])]])]
            cont.map (fun mr => (move_step :: mr.1, dest_dir :: mr.2)))

/-- _build_moves_from_entries_config (planner.py lines 410-634).  The
returned directory list is sorted(set(...)). -/
def build_moves_from_entries_config (regexSearch : String → String → Bool)
    (now : Int) (root_path staging_dir : String) (cfg : PyVal) (entries : PyVal)
    (include_dirs : Bool) (exclude : List String) :
    Except String (List PyVal × List String) :=
  if isNoneVal entries then Except.ok ([], [])
  else if ¬ entries.isList then Except.error "intent.invalid"
  else
    let safety := if (dget cfg "safety").isDict then dget cfg "safety" else PyVal.dict []
    let ignore_patterns := match dget safety "ignore_patterns" with
      | PyVal.list ps => ps.filterMap PyVal.asStr
      | _ => []
    let cs_v := dgetD safety "collision_strategy" (PyVal.str "suffix_increment")
    let collision_strategy :=
      if eqStrVal cs_v "error" ∨ eqStrVal cs_v "overwrite" ∨ eqStrVal cs_v "skip" ∨
          eqStrVal cs_v "suffix_increment" then strOf cs_v
      else "suffix_increment"
    let folders_map := if (dget cfg "folders").isDict then dget cfg "folders" else PyVal.dict []
    let defaults := if (dget cfg "defaults").isDict then dget cfg "defaults" else PyVal.dict []
    let ua := if (dgetD defaults "unmatched_action" (PyVal.dict [])).isDict then
        dgetD defaults "unmatched_action" (PyVal.dict []) else PyVal.dict []
    let unmatched_move_to :=
      if isNonEmptyStr (dgetD ua "move_to" (PyVal.str "misc")) then
        strOf (dgetD ua "move_to" (PyVal.str "misc"))
      else "misc"
    let rules := match dgetD cfg "rules" (PyVal.list []) with
      | PyVal.list rs => rs
      | _ => []
    (buildMovesLoop regexSearch now root_path staging_dir ignore_patterns
      collision_strategy folders_map unmatched_move_to rules include_dirs exclude
      1 (listOf entries)).map (fun mr =>
        (mr.1, stableSortBy strLe mr.2.eraseDups))

/-- Helper: the fs.list staging step shared by the tidy branches. -/
def stagingListStep (root_path : String) : PyVal :=
  PyVal.dict [
    ("step_id", PyVal.str "staging_list_root"),
    ("title", PyVal.str "List root directory (staging)"),
    ("phase", PyVal.str "staging"),
    ("tool", PyVal.dict [("tool_id", PyVal.str "fs.list"),
      ("args", PyVal.dict [("path", PyVal.str root_path)]),
      ("dry_run_ok", PyVal.bool true)]),
    ("preconditions", PyVal.list [PyVal.str ("Scope includes " ++ root_path)])]

/-- Helper: a commit fs.mkdir step (parents, exist_ok). -/
def mkdirStep (step_id title d : String) : PyVal :=
  PyVal.dict [
    ("step_id", PyVal.str step_id),
    ("title", PyVal.str title),
    ("phase", PyVal.str "commit"),
    ("tool", PyVal.dict [("tool_id", PyVal.str "fs.mkdir"),
      ("args", PyVal.dict [("path", PyVal.str d), ("parents", PyVal.bool true),
        ("exist_ok", PyVal.bool true)]),
      ("dry_run_ok", PyVal.bool true)]),
    ("expected_effects", PyVal.list [PyVal.dict [
      ("kind", PyVal.str "fs_mkdir"),
      ("summary", PyVal.str ("Create " ++ d ++ " if missing")),
      ("resources", PyVal.list [PyVal.str d])]])]

/-- Helper: a commit notify.send step. -/
def notifyStep (step_id title message : String) : PyVal :=
  PyVal.dict [
    ("step_id", PyVal.str step_id),
    ("title", PyVal.str title),
    ("phase", PyVal.str "commit"),
    ("tool", PyVal.dict [("tool_id", PyVal.str "notify.send"),
      ("args", PyVal.dict [("message", PyVal.str message)]),
      ("dry_run_ok", PyVal.bool true)])]

/-- The fs.mkdir steps for the created destination directories. -/
def mkdirStepsFor (created_dirs : List String) : List PyVal :=
  created_dirs.map (fun d =>
    mkdirStep ("commit_mkdir_" ++ sReplaceChar '/' '_' d) ("Create folder (commit): " ++ d) d)

/-- The built-in legacy rule set of _plan_legacy_tidy (planner.py lines
136-171). -/
def legacyCfg (root_path staging_dir collision_strategy : String) : PyVal :=
  PyVal.dict [
    ("version", PyVal.str "0.1"),
    ("plugin", PyVal.str "builtin.desktop"),
    ("root", PyVal.dict [("path", PyVal.str root_path),
      ("staging_dir", PyVal.str staging_dir)]),
    ("folders", PyVal.dict [
      ("screenshots", PyVal.str "Screenshots"),
      ("documents", PyVal.str "Documents"),
      ("images", PyVal.str "Images"),
      ("archives", PyVal.str "Archives"),
      ("misc", PyVal.str "Misc")]),
    ("rules", PyVal.list [
      PyVal.dict [("id", PyVal.str "legacy_screenshots"),
        ("match", PyVal.dict [("any", PyVal.list [PyVal.dict [
          ("filename_regex", PyVal.str "^Screen Shot ")]])]),
        ("action", PyVal.dict [("move_to", PyVal.str "screenshots")])],
      PyVal.dict [("id", PyVal.str "legacy_images"),
        ("match", PyVal.dict [("any", PyVal.list [PyVal.dict [
          ("ext_in", PyVal.list (["png", "jpg", "jpeg", "gif", "webp", "heic",
            "svg"].map PyVal.str))]])]),
        ("action", PyVal.dict [("move_to", PyVal.str "images")])],
      PyVal.dict [("id", PyVal.str "legacy_documents"),
        ("match", PyVal.dict [("any", PyVal.list [PyVal.dict [
          ("ext_in", PyVal.list (["pdf", "doc", "docx", "xls", "xlsx", "ppt",
            "pptx", "txt", "md", "csv"].map PyVal.str))]])]),
        ("action", PyVal.dict [("move_to", PyVal.str "documents")])],
      PyVal.dict [("id", PyVal.str "legacy_archives"),
        ("match", PyVal.dict [("any", PyVal.list [PyVal.dict [
          ("ext_in", PyVal.list (["zip", "7z", "rar", "tar", "gz", "bz2",
            "xz"].map PyVal.str))]])]),
        ("action", PyVal.dict [("move_to", PyVal.str "archives")])]]),
    ("defaults", PyVal.dict [("unmatched_action", PyVal.dict [
      ("move_to", PyVal.str "misc")])]),
    ("safety", PyVal.dict [("no_delete", PyVal.bool true),
      ("require_staging", PyVal.bool true),
      ("collision_strategy", PyVal.str collision_strategy),
      ("ignore_patterns", PyVal.list [PyVal.str ".DS_Store"])])]

/-- The exclude list handed to _build_moves_from_entries_config: the
elements of params.exclude (validated to be strings by plan()). -/
def excludeStrs (params : PyVal) : List String :=
  match dget params "exclude" with
  | PyVal.list xs => xs.filterMap PyVal.asStr
  | _ => []

/-- _plan_legacy_tidy (planner.py lines 98-230). -/
def plan_legacy_tidy (expandUser : String → String)
    (regexSearch : String → String → Bool) (now : Int) (intent : PyVal) :
    Except String PyVal :=
  let params := if (dget intent "params").isDict then dget intent "params" else PyVal.dict []
  let target_dir_v := dget params "target_dir"
  let target_dir_v := if isNoneVal target_dir_v then PyVal.str "~/Desktop" else target_dir_v
  if ¬ isNonEmptyStr target_dir_v then Except.error "intent.invalid" else
  let root_path := expandUser (strOf target_dir_v)
  let staging_v := dget params "staging_dir"
  let staging_v := if isNoneVal staging_v then PyVal.str (root_path ++ "/_Sorted") else staging_v
  if ¬ isNonEmptyStr staging_v then Except.error "intent.invalid" else
  let staging_dir := expandUser (strOf staging_v)
  let fs_roots := match dgetD (if (dget intent "scope").isDict then dget intent "scope"
      else PyVal.dict []) "fs_roots" (PyVal.list []) with
    | PyVal.list xs => xs
    | _ => []
  let fs_roots_expanded := (fs_roots.filterMap PyVal.asStr).map expandUser
  if ¬ (root_path ∈ fs_roots_expanded ∧ staging_dir ∈ fs_roots_expanded) then
    Except.error "scope.invalid"
  else
    let os_v := dget params "overwrite_strategy"
    let collision_strategy :=
      if eqStrVal os_v "error" ∨ eqStrVal os_v "overwrite" ∨ eqStrVal os_v "skip" then
        strOf os_v
      else "suffix_increment"
    let cfg := legacyCfg root_path staging_dir collision_strategy
    let entries := dget params "entries"
    (build_moves_from_entries_config regexSearch now root_path staging_dir cfg entries
      (pyTruthy (dgetD params "include_dirs" (PyVal.bool false)))
      (excludeStrs params)).map (fun mr =>
      let move_steps := mr.1
      let summary := if move_steps.isEmpty then "Desktop tidy (legacy): no entries provided"
        else "Desktop tidy (legacy): " ++ toString move_steps.length ++
          " move step(s) planned into " ++ staging_dir
      let steps := [stagingListStep root_path,
          mkdirStep "commit_create_sorted_dir" "Create _Sorted staging dir (commit)" staging_dir]
        ++ mkdirStepsFor mr.2 ++ move_steps
        ++ [notifyStep "commit_notify" "Notify summary (commit)" summary]
      PyVal.dict [
        ("plan_id", PyVal.str "plan_desktop_tidy_legacy_001"),
        ("intent", intent),
        ("risk", PyVal.dict [("level", PyVal.str "low"),
          ("reasons", PyVal.list [PyVal.str
            "Built-in legacy rules; no deletes; deterministic tools only."])]),
        ("steps", PyVal.list steps)])

/-- The scaffold YAML text of _plan_configure (planner.py lines 274-313). -/
def configureScaffold : String :=
  "version: \"0.1\"\nplugin: \"builtin.desktop\"\n\nroot:\n  path: \"~/Desktop\"\n" ++
  "  staging_dir: \"~/Desktop_Staging\"\n\nfolders:\n  screenshots: \"Screenshots\"\n" ++
  "  images: \"Images\"\n  documents: \"Documents\"\n  archives: \"Archives\"\n" ++
  "  misc: \"Misc\"\n\nrules:\n  - id: \"rule_screenshots\"\n    match:\n      any:\n" ++
  "        - filename_regex: \"^Screen Shot \"\n    action:\n      move_to: \"screenshots\"\n\n" ++
  "  - id: \"rule_images\"\n    match:\n      any:\n        - mime_prefix: \"image/\"\n" ++
  "    action:\n      move_to: \"images\"\n\n  - id: \"rule_docs\"\n    match:\n      any:\n" ++
  "        - ext_in: [\"pdf\", \"docx\", \"xlsx\", \"pptx\", \"txt\", \"md\"]\n    action:\n" ++
  "      move_to: \"documents\"\n\ndefaults:\n  unmatched_action:\n    move_to: \"misc\"\n\n" ++
  "safety:\n  no_delete: true\n  require_staging: true\n" ++
  "  collision_strategy: \"suffix_increment\"\n  ignore_patterns: [\".DS_Store\"]\n"

/-- _plan_configure (planner.py lines 266-326). -/
def plan_configure (intent : PyVal) : Except String PyVal :=
  Except.ok (PyVal.dict [
    ("plan_id", PyVal.str "plan_desktop_tidy_configure_001"),
    ("intent", intent),
    ("risk", PyVal.dict [("level", PyVal.str "low"),
      ("reasons", PyVal.list [PyVal.str
        "Configuration scaffolding only (no filesystem changes)."])]),
    ("steps", PyVal.list [notifyStep "commit_notify_scaffold"
      "Print scaffold config (commit)" configureScaffold])])

/-- _plan_tidy_from_config (planner.py lines 328-408). -/
def plan_tidy_from_config (loadCfg : String → Except String PyVal)
    (expandUser : String → String) (regexSearch : String → String → Bool)
    (now : Int) (intent : PyVal) (preview : Bool) : Except String PyVal :=
  let params := dget intent "params"
  let config_path_v := dget params "config_path"
  if ¬ isNonEmptyStr config_path_v then Except.error "intent.invalid" else
  (loadCfg (strOf config_path_v)).bind (fun cfg =>
    let root_path := expandUser (strOf (dget (dget cfg "root") "path"))
    let staging_dir := expandUser (strOf (dget (dget cfg "root") "staging_dir"))
    let fs_roots := match dgetD (if (dget intent "scope").isDict then dget intent "scope"
        else PyVal.dict []) "fs_roots" (PyVal.list []) with
      | PyVal.list xs => xs
      | _ => []
    let fs_roots_expanded := (fs_roots.filterMap PyVal.asStr).map expandUser
    if ¬ (root_path ∈ fs_roots_expanded ∧ staging_dir ∈ fs_roots_expanded) then
      Except.error "scope.invalid"
    else
      (build_moves_from_entries_config regexSearch now root_path staging_dir cfg
        (dget params "entries")
        (pyTruthy (dgetD params "include_dirs" (PyVal.bool false)))
        (excludeStrs params)).map (fun mr =>
        let move_steps := mr.1
        let summary := if move_steps.isEmpty then "Desktop tidy (config): no entries provided"
          else "Desktop tidy (config): " ++ toString move_steps.length ++
            " move step(s) planned into " ++ staging_dir
        let steps := [stagingListStep root_path,
            mkdirStep "commit_create_staging_dir" "Create staging_dir (commit)" staging_dir]
          ++ mkdirStepsFor mr.2 ++ move_steps
          ++ [notifyStep "commit_notify" "Notify summary (commit)" summary]
        PyVal.dict [
          ("plan_id", PyVal.str (if preview then "plan_desktop_tidy_preview_001"
            else "plan_desktop_tidy_run_001")),
          ("intent", intent),
          ("risk", PyVal.dict [("level", PyVal.str "low"),
            ("reasons", PyVal.list [PyVal.str
              "Config-driven staging; no deletes; deterministic tools only."])]),
          ("steps", PyVal.list steps)]))

/-- The per-entry loop of _build_restore_moves_config. -/
def restoreLoop (root_path staging_dir collision_strategy : String)
    (exclude : List String) : Nat → List PyVal → List PyVal
  | _, [] => []
  | i, e :: rest =>
    let cont := restoreLoop root_path staging_dir collision_strategy exclude (i + 1) rest
    let rel_path := strOf (dget e "path")
    let base := ((sSplitOnChar '/' rel_path).getLastD rel_path)
    let skip := base = "" ∨ sStartsWith base "." ∨
      exclude.any (fun pat => fnmatchcase base pat)
    if skip then cont
    else
      let src := staging_dir ++ "/" ++ rel_path
      let dst := root_path ++ "/" ++ base
      PyVal.dict [
        ("step_id", PyVal.str ("commit_restore_" ++ pad4 i)),
        ("title", PyVal.str ("Restore: " ++ base)),
        ("phase", PyVal.str "commit"),
        ("tool", PyVal.dict [("tool_id", PyVal.str "fs.move"),
          ("args", PyVal.dict [("from", PyVal.str src), ("to", PyVal.str dst),
            ("on_conflict", PyVal.str collision_strategy)]),
          ("dry_run_ok", PyVal.bool true)]),
        ("expected_effects", PyVal.list [PyVal.dict [
          ("kind", PyVal.str "fs_move"),
          ("summary", PyVal.str ("Restore " ++ base ++ " (on_conflict=" ++
            collision_strategy ++ ")")),
          ("resources", PyVal.list [PyVal.str src, PyVal.str dst])]])] :: cont

/-- _build_restore_moves_config (planner.py lines 685-746). -/
def build_restore_moves_config (root_path staging_dir : String)
    (collision_strategy0 : String) (sorted_entries : PyVal) (exclude : List String) :
    Except String (List PyVal) :=
  if isNoneVal sorted_entries then Except.ok []
  else if ¬ sorted_entries.isList then Except.error "intent.invalid"
  else
    let collision_strategy :=
      if collision_strategy0 ∈ ["error", "overwrite", "skip", "suffix_increment"] then
        collision_strategy0
      else "suffix_increment"
    let file_entries := (listOf sorted_entries).filter (fun e =>
      e.isDict ∧ (dget e "path").isStr ∧ pyTruthy (dgetD e "is_file" (PyVal.bool false)))
    let file_entries := stableSortBy (fun a b =>
      strLe (strOf (dget a "path")) (strOf (dget b "path"))) file_entries
    Except.ok (restoreLoop root_path staging_dir collision_strategy exclude 1 file_entries)

/-- _plan_restore_from_config (planner.py lines 636-683). -/
def plan_restore_from_config (loadCfg : String → Except String PyVal)
    (expandUser : String → String) (intent : PyVal) : Except String PyVal :=
  let params := dget intent "params"
  let config_path_v := dget params "config_path"
  if ¬ isNonEmptyStr config_path_v then Except.error "intent.invalid" else
  (loadCfg (strOf config_path_v)).bind (fun cfg =>
    let root_path := expandUser (strOf (dget (dget cfg "root") "path"))
    let staging_dir := expandUser (strOf (dget (dget cfg "root") "staging_dir"))
    let fs_roots := match dgetD (if (dget intent "scope").isDict then dget intent "scope"
        else PyVal.dict []) "fs_roots" (PyVal.list []) with
      | PyVal.list xs => xs
      | _ => []
    let fs_roots_expanded := (fs_roots.filterMap PyVal.asStr).map expandUser
    if ¬ (root_path ∈ fs_roots_expanded ∧ staging_dir ∈ fs_roots_expanded) then
      Except.error "scope.invalid"
    else
      let safety := if (dget cfg "safety").isDict then dget cfg "safety" else PyVal.dict []
      let cs_v := dgetD safety "collision_strategy" (PyVal.str "suffix_increment")
      let collision_strategy := if cs_v.isStr then strOf cs_v else "suffix_increment"
      (build_restore_moves_config root_path staging_dir collision_strategy
        (dget params "sorted_entries") (excludeStrs params)).map (fun move_steps =>
        PyVal.dict [
          ("plan_id", PyVal.str "plan_desktop_tidy_restore_001"),
          ("intent", intent),
          ("risk", PyVal.dict [("level", PyVal.str "low"),
            ("reasons", PyVal.list [PyVal.str "Config-driven restore (no deletes)."])]),
          ("steps", PyVal.list (notifyStep "commit_notify_restore" "Notify (commit)"
            ("Desktop restore (config): root=" ++ root_path) :: move_steps))]))

/-- The scope copy built by BuiltinDesktopPlanner.plan (planner.py line 82):
only fs_roots and allow_network survive. -/
def plannerScopeCopy (scope : PyVal) : PyVal :=
  PyVal.dict [
    ("fs_roots", dget scope "fs_roots"),
    ("allow_network", PyVal.bool (pyTruthy (dgetD scope "allow_network" (PyVal.bool false))))]

/-- The validation prefix of BuiltinDesktopPlanner.plan (planner.py lines
36-84): checks the intent and builds the (intent_id, intent_obj) pair. -/
def planner_plan_checks (intent : PyVal) : Except String (String × PyVal) :=
  if ¬ intent.isDict then Except.error "intent.invalid" else
  let intent_id_v := dget intent "intent_id"
  if ¬ isNonEmptyStr intent_id_v then Except.error "intent.invalid" else
  let intent_id := strOf intent_id_v
  let params := if (dget intent "params").isDict then dget intent "params" else PyVal.dict []
  let scope := if (dget intent "scope").isDict then dget intent "scope" else PyVal.dict []
  let context := if (dget intent "context").isDict then dget intent "context" else PyVal.dict []
  let fs_roots_v := dget scope "fs_roots"
  if ¬ (fs_roots_v.isList ∧ (listOf fs_roots_v).length ≥ 1) then
    Except.error "scope.missing"
  else
  let include_dirs := pyTruthy (dgetD params "include_dirs" (PyVal.bool false))
  let exclude0 := dgetD params "exclude" (PyVal.list [])
  let exclude_v := if isNoneVal exclude0 then PyVal.list [] else exclude0
  if ¬ (exclude_v.isList ∧ (listOf exclude_v).all PyVal.isStr) then
    Except.error "intent.invalid"
  else
  let config_path_v := dget params "config_path"
  if intent_id ∈ ["desktop.tidy.preview", "desktop.tidy.run", "desktop.tidy.restore"] ∧
      ¬ isNonEmptyStr config_path_v then
    Except.error "intent.invalid"
  else if intent_id = "desktop.tidy.configure" ∧ ¬ isNoneVal config_path_v ∧
      ¬ isNonEmptyStr config_path_v then
    Except.error "intent.invalid"
  else
  Except.ok (intent_id, PyVal.dict [
    ("intent_id", PyVal.str intent_id),
    ("params", PyVal.dict [
      ("config_path", config_path_v),
      ("target_dir", dget params "target_dir"),
      ("staging_dir", dget params "staging_dir"),
      ("overwrite_strategy", dget params "overwrite_strategy"),
      ("include_dirs", PyVal.bool include_dirs),
      ("exclude", exclude_v),
      ("entries", dget params "entries"),
      ("sorted_entries", dget params "sorted_entries")]),
    ("scope", plannerScopeCopy scope),
    ("context", if pyTruthy context then context else PyVal.dict [])])

/-- BuiltinDesktopPlanner.plan (planner.py lines 36-96): the validation
prefix followed by the per-intent dispatch. -/
def planner_plan (loadCfg : String → Except String PyVal)
    (expandUser : String → String) (regexSearch : String → String → Bool)
    (now : Int) (intent : PyVal) : Except String PyVal :=
  (planner_plan_checks intent).bind (fun io =>
    if io.1 = "desktop.tidy" then
      plan_legacy_tidy expandUser regexSearch now io.2
    else if io.1 = "desktop.tidy.configure" then plan_configure io.2
    else if io.1 = "desktop.tidy.preview" then
      plan_tidy_from_config loadCfg expandUser regexSearch now io.2 true
    else if io.1 = "desktop.tidy.run" then
      plan_tidy_from_config loadCfg expandUser regexSearch now io.2 false
    else if io.1 = "desktop.tidy.restore" then
      plan_restore_from_config loadCfg expandUser io.2
    else Except.error "intent.unknown")

/-! ## Concrete instances used by the theorems below -/

/-- A hostname oracle for plans that never reach URL parsing. -/
def hostNone : String → Option String := fun _ => Option.none

/-- A tool-call oracle whose implementations always succeed. -/
def callOk : String → PyVal → Bool → Except String PyVal :=
  fun _ _ _ => Except.ok (PyVal.dict [])

/-- A plan-schema oracle that reports no validation errors. -/
def schemaOkAll : PyVal → List String := fun _ => []

/-- A regex oracle; the concrete configs below use no filename_regex rules,
so its value is irrelevant. -/
def rxNone : String → String → Bool := fun _ _ => false

/-- A single fs.list step with the given path and dry_run_ok flag. -/
def fsListStep (sid p : String) (ok : Bool) : PyVal :=
  PyVal.dict [("step_id", PyVal.str sid),
    ("tool", PyVal.dict [("tool_id", PyVal.str "fs.list"),
      ("args", PyVal.dict [("path", PyVal.str p)]),
      ("dry_run_ok", PyVal.bool ok)])]

/-- A well-formed plan with the given fs_roots and steps. -/
def mkPlan (roots : List String) (steps : List PyVal) : PyVal :=
  PyVal.dict [
    ("plan_id", PyVal.str "p1"),
    ("intent", PyVal.dict [
      ("intent_id", PyVal.str "i1"),
      ("scope", PyVal.dict [("fs_roots", PyVal.list (roots.map PyVal.str))])]),
    ("steps", PyVal.list steps)]

/-- fs.move args carrying the documented optional on_conflict field. -/
def c2Args : PyVal := PyVal.dict [
  ("from", PyVal.str "/tmp/a"), ("to", PyVal.str "/tmp/b"),
  ("on_conflict", PyVal.str "skip")]

/-- A plan whose single step invokes fs.move with on_conflict. -/
def c2Plan : PyVal := PyVal.dict [
  ("plan_id", PyVal.str "p1"),
  ("intent", PyVal.dict [("intent_id", PyVal.str "i1"),
    ("scope", PyVal.dict [("fs_roots", PyVal.list [PyVal.str "/tmp"])])]),
  ("steps", PyVal.list [PyVal.dict [("step_id", PyVal.str "s1"),
    ("tool", PyVal.dict [("tool_id", PyVal.str "fs.move"), ("args", c2Args),
      ("dry_run_ok", PyVal.bool true)])]])]

/-- The desktop-tidy config of the routing scenario: folders map to the
given images/downloads targets, r_jpg moves jpg to images, r_tmp is a
delete:true rule, unmatched entries go to downloads. -/
def tidyCfg (pics downloads : String) : PyVal := PyVal.dict [
  ("version", PyVal.str "0.1"), ("plugin", PyVal.str "builtin.desktop"),
  ("root", PyVal.dict [("path", PyVal.str "/r"), ("staging_dir", PyVal.str "/s")]),
  ("folders", PyVal.dict [("images", PyVal.str pics), ("downloads", PyVal.str downloads)]),
  ("rules", PyVal.list [
    PyVal.dict [("id", PyVal.str "r_jpg"),
      ("match", PyVal.dict [("any", PyVal.list [PyVal.dict [
        ("ext_in", PyVal.list [PyVal.str "jpg"])]])]),
      ("action", PyVal.dict [("move_to", PyVal.str "images")])],
    PyVal.dict [("id", PyVal.str "r_tmp"),
      ("match", PyVal.dict [("any", PyVal.list [PyVal.dict [
        ("ext_in", PyVal.list [PyVal.str "tmp"])]])]),
      ("action", PyVal.dict [("delete", PyVal.bool true)])]]),
  ("defaults", PyVal.dict [("unmatched_action", PyVal.dict [
    ("move_to", PyVal.str "downloads")])]),
  ("safety", PyVal.dict [("collision_strategy", PyVal.str "suffix_increment"),
    ("ignore_patterns", PyVal.list [])])]

/-- The entries snapshot of the routing scenario. -/
def tidyEntries : PyVal :=
  PyVal.list [PyVal.str "pic.jpg", PyVal.str "a.tmp", PyVal.str "note.bin"]

/-- The desktop.tidy.preview intent of the routing scenario, with scope
covering the config roots. -/
def tidyIntent : PyVal := PyVal.dict [
  ("intent_id", PyVal.str "desktop.tidy.preview"),
  ("params", PyVal.dict [("config_path", PyVal.str "/cfg/desktop_rules.yml"),
    ("entries", tidyEntries)]),
  ("scope", PyVal.dict [("fs_roots", PyVal.list [PyVal.str "/r", PyVal.str "/s"])]),
  ("context", PyVal.dict [])]

/-- The destination of a generated move step. -/
def moveTo (s : PyVal) : String := strOf (dget (dget (dget s "tool") "args") "to")

/-- The source of a generated move step. -/
def moveFrom (s : PyVal) : String := strOf (dget (dget (dget s "tool") "args") "from")

/-- The step_id of a generated step. -/
def stepIdOf (s : PyVal) : String := strOf (dget s "step_id")

/-- A desktop.tidy.configure intent whose declared scope carries
fs_roots, allow_network and a network_hosts_allowlist. -/
def c4Intent : PyVal := PyVal.dict [
  ("intent_id", PyVal.str "desktop.tidy.configure"),
  ("params", PyVal.dict []),
  ("scope", PyVal.dict [
    ("fs_roots", PyVal.list [PyVal.str "/r"]),
    ("allow_network", PyVal.bool true),
    ("network_hosts_allowlist", PyVal.list [PyVal.str "example.com"])]),
  ("context", PyVal.dict [])]

/-- The plan the planner returns for c4Intent (no config file is read on
the configure path, so the loader oracle is irrelevant). -/
def c4Plan : PyVal :=
  match planner_plan (fun _ => Except.error "config.not_found") (fun s => s)
      rxNone 0 c4Intent with
  | Except.ok p => p
  | Except.error _ => PyVal.none

/-- A step invoking tool_id with the given args. -/
def netStep (tool_id : String) (args : PyVal) : PyVal :=
  PyVal.dict [("step_id", PyVal.str "s1"),
    ("tool", PyVal.dict [("tool_id", PyVal.str tool_id), ("args", args)])]

/-- The entry names in snapshot order, as the loop of
_build_moves_from_entries_config extracts them (dict entries by their name
field, plain strings as themselves). -/
def snapshotNames : List PyVal → List String :=
  List.filterMap (fun it =>
    if it.isDict then
      (if isNonEmptyStr (dget it "name") then some (strOf (dget it "name"))
       else Option.none)
    else
      match it with
      | PyVal.str s => some s
      | _ => Option.none)

/-- An entries snapshot listed in descending name order. -/
def c9Entries : List PyVal := [PyVal.str "b.txt", PyVal.str "a.txt"]

/-- The planner run on the descending snapshot (relative folder targets so
routing succeeds). -/
def c9Build : Except String (List PyVal × List String) :=
  build_moves_from_entries_config rxNone 0 "/r" "/s" (tidyCfg "Pictures" "Downloads")
    (PyVal.list c9Entries) false []

def c9Moves : List PyVal :=
  match c9Build with
  | Except.ok mr => mr.1
  | Except.error _ => []

def c9Dirs : List String :=
  match c9Build with
  | Except.ok mr => mr.2
  | Except.error _ => []

/-- A network-side-effect tool definition in the shape reg_tool builds (the
net.http tool of the spec; the tool file ships with the repository but is
not registered by bootstrap_tools, so policy evaluation is exercised over a
registry extended with it). -/
def netHttpDef : PyVal :=
  regToolDef "net.http" "HTTP request" "network" true (PyVal.dict [])

/-- A single-step plan invoking tool_id with the given args under scope
{fs_roots:[root], allow_network:true, network_hosts_allowlist:allowlist}. -/
def netPlan (root : String) (allowlist : List String) (tool_id : String)
    (args : PyVal) : PyVal :=
  PyVal.dict [
    ("plan_id", PyVal.str "p1"),
    ("intent", PyVal.dict [("intent_id", PyVal.str "i1"),
      ("scope", PyVal.dict [
        ("fs_roots", PyVal.list [PyVal.str root]),
        ("allow_network", PyVal.bool true),
        ("network_hosts_allowlist", PyVal.list (allowlist.map PyVal.str))])]),
    ("steps", PyVal.list [netStep tool_id args])]

end Nucleus

namespace Nucleus

/-- C2: the executor validates fs.move args against the registered
args_schema, which omits on_conflict and sets additionalProperties:false;
the documented optional argument {from, to, on_conflict} is therefore
rejected: validation fails, a step_denied event is emitted, tool.args_invalid
is raised, and no tool implementation runs.  This contradicts the claim (and
the specification, the fs.move implementation and the planner, which all
treat on_conflict as a valid argument). -/
theorem C2_fs_move_on_conflict_rejected :
    schemaValidate fsMoveArgsSchema c2Args = false ∧
    (execute bootstrapRegistry callOk {} c2Plan).events =
      [TEvent.plan_generated, TEvent.step_denied] ∧
    (execute bootstrapRegistry callOk {} c2Plan).result = Except.error "tool.args_invalid" ∧
    (execute bootstrapRegistry callOk {} c2Plan).calls = [] :=
  ⟨rfl, rfl, rfl, rfl⟩

/-- C3: on the routing scenario (folders images:/p/Pictures,
downloads:/p/Downloads, r_jpg to images, r_tmp delete:true, defaults to
downloads, entries pic.jpg / a.tmp / note.bin) the planner does not produce
the three documented moves: validate_dest_subpath rejects the absolute
folder target /p/Pictures, so the plan raises config.invalid (first
conjunct, both at the move builder and through plan()).  With relative
folder names the delete:true rule is also ignored: a.tmp is routed to the
unmatched default Downloads, not to ToDelete (second conjunct). -/
theorem C3_delete_routing_diverges :
    build_moves_from_entries_config rxNone 0 "/r" "/s"
      (tidyCfg "/p/Pictures" "/p/Downloads") tidyEntries false [] =
      Except.error "config.invalid" ∧
    planner_plan (fun _ => Except.ok (tidyCfg "/p/Pictures" "/p/Downloads"))
      (fun s => s) rxNone 0 tidyIntent = Except.error "config.invalid" ∧
    (build_moves_from_entries_config rxNone 0 "/r" "/s"
      (tidyCfg "Pictures" "Downloads") tidyEntries false []).map
        (fun mr => mr.1.map moveTo) =
      Except.ok ["/s/Pictures/pic.jpg", "/s/Downloads/a.tmp", "/s/Downloads/note.bin"] :=
  ⟨rfl, rfl, rfl⟩

theorem netCheck_singleDeny (hostname : String → Option String) (an : Bool)
    (al : List String) (tc td : PyVal) (tid : String) (r : PolicyResult)
    (h : netCheck hostname an al tc td tid = some r) : isSingleDeny r := by
  unfold netCheck at h
  dsimp only [] at h
  repeat' split at h
  all_goals first
    | (injection h with h; exact h ▸ ⟨rfl, ⟨_, rfl⟩⟩)
    | exact absurd h (by simp)

theorem fsCheck_singleDeny (cwd : List String) (roots : List (List String))
    (tc : PyVal) (tid : String) (r : PolicyResult)
    (h : fsCheck cwd roots tc tid = some r) : isSingleDeny r := by
  unfold fsCheck at h
  dsimp only [] at h
  repeat' split at h
  all_goals first
    | (injection h with h; exact h ▸ ⟨rfl, ⟨_, rfl⟩⟩)
    | exact absurd h (by simp)

theorem stepDeny_singleDeny (cwd : List String) (hostname : String → Option String)
    (reg : Registry) (ctx : RuntimeContext) (roots : List (List String))
    (an : Bool) (al : List String) (step : PyVal) (r : PolicyResult)
    (h : stepDeny cwd hostname reg ctx roots an al step = some r) : isSingleDeny r := by
  unfold stepDeny at h
  dsimp only [] at h
  repeat' split at h
  all_goals first
    | (injection h with h; exact h ▸ ⟨rfl, ⟨_, rfl⟩⟩)
    | (injection h with h; subst h
       exact netCheck_singleDeny _ _ _ _ _ _ _ (by assumption))
    | (injection h with h; subst h
       exact fsCheck_singleDeny _ _ _ _ _ (by assumption))
    | exact absurd h (by simp)

theorem stepsDeny_singleDeny (cwd : List String) (hostname : String → Option String)
    (reg : Registry) (ctx : RuntimeContext) (roots : List (List String))
    (an : Bool) (al : List String) (steps : List PyVal) (r : PolicyResult)
    (h : stepsDeny cwd hostname reg ctx roots an al steps = some r) : isSingleDeny r := by
  induction steps with
  | nil => simp [stepsDeny] at h
  | cons s rest ih =>
    unfold stepsDeny at h
    split at h
    · rename_i hs
      cases h
      exact stepDeny_singleDeny _ _ _ _ _ _ _ _ _ hs
    · exact ih h

/-- evaluate returns either the allow constant or a single-code denial. -/
theorem evaluate_shape (cwd : List String) (hostname : String → Option String)
    (reg : Registry) (ctx : RuntimeContext) (plan : PyVal) :
    evaluate cwd hostname reg ctx plan = allowResult ∨
      isSingleDeny (evaluate cwd hostname reg ctx plan) := by
  unfold evaluate
  dsimp only []
  repeat' split
  all_goals first
    | exact Or.inl rfl
    | exact Or.inr ⟨rfl, ⟨_, rfl⟩⟩
    | exact Or.inr (stepsDeny_singleDeny _ _ _ _ _ _ _ _ _ (by assumption))

/-- C10: whenever PolicyEngine.evaluate denies, reason_codes is exactly one
code; whenever it allows, reason_codes is exactly [scope.ok, tools.ok]; the
decision is always one of allow/deny (evaluate is a total pure function of
its inputs in this embedding, so it neither raises nor mutates). -/
theorem C10_policy_result_invariant (cwd : List String)
    (hostname : String → Option String) (reg : Registry) (ctx : RuntimeContext)
    (plan : PyVal) :
    ((evaluate cwd hostname reg ctx plan).decision = "allow" ∨
      (evaluate cwd hostname reg ctx plan).decision = "deny") ∧
    ((evaluate cwd hostname reg ctx plan).decision = "deny" →
      ∃ c, (evaluate cwd hostname reg ctx plan).reason_codes = [c]) ∧
    ((evaluate cwd hostname reg ctx plan).decision = "allow" →
      (evaluate cwd hostname reg ctx plan).reason_codes = ["scope.ok", "tools.ok"]) := by
  rcases evaluate_shape cwd hostname reg ctx plan with h | h
  · rw [h]
    refine ⟨Or.inl rfl, ?_, fun _ => rfl⟩
    intro hd
    simp [allowResult] at hd
  · obtain ⟨hd, c, hc⟩ := h
    refine ⟨Or.inr hd, fun _ => ⟨c, hc⟩, ?_⟩
    intro ha
    rw [hd] at ha
    simp at ha

/-- C10 witness: at a concrete allowed plan the reason codes are exactly
[scope.ok, tools.ok]. -/
theorem C10_witness :
    (evaluate [] hostNone bootstrapRegistry {}
      (mkPlan ["/tmp"] [fsListStep "s1" "/tmp" true])).reason_codes =
      ["scope.ok", "tools.ok"] :=
  (C10_policy_result_invariant [] hostNone bootstrapRegistry {}
    (mkPlan ["/tmp"] [fsListStep "s1" "/tmp" true])).2.2 rfl

/-- C6 counterexample: with ctx.dry_run=true but ctx.strict_dry_run=false, a
step that passes every other rule and sets dry_run_ok=false is still denied
with dry_run.step_not_marked_ok, refuting the claim that no dry-run denial
happens when strict_dry_run=false. -/
theorem C6_counterexample :
    (({ run_id := "run", dry_run := true, strict_dry_run := false } :
      RuntimeContext)).strict_dry_run = false ∧
    (evaluate [] hostNone bootstrapRegistry
      { run_id := "run", dry_run := true, strict_dry_run := false }
      (mkPlan ["/tmp"] [fsListStep "s1" "/tmp" false])).decision = "deny" ∧
    (evaluate [] hostNone bootstrapRegistry
      { run_id := "run", dry_run := true, strict_dry_run := false }
      (mkPlan ["/tmp"] [fsListStep "s1" "/tmp" false])).reason_codes =
      ["dry_run.step_not_marked_ok"] :=
  ⟨rfl, rfl, rfl⟩

/-- C6 amended: for a step that passes the tool-resolution, network,
filesystem-scope and destructive rules, the dry-run gates behave as follows:
the supports_dry_run gate (dry_run.not_supported) fires exactly when
ctx.dry_run and ctx.strict_dry_run both hold and the tool does not declare
supports_dry_run; the dry_run_ok gate (dry_run.step_not_marked_ok) fires
whenever ctx.dry_run=true and the step sets dry_run_ok=false, regardless of
ctx.strict_dry_run. -/
theorem C6_dry_run_gates (cwd : List String) (hostname : String → Option String)
    (reg : Registry) (ctx : RuntimeContext) (roots : List (List String))
    (an : Bool) (al : List String) (step tool_def : PyVal)
    (h1 : step.isDict = true)
    (h2 : (dget step "tool").isDict = true)
    (h3 : isNonEmptyStr (dget (dget step "tool") "tool_id") = true)
    (h4 : regGet reg (strOf (dget (dget step "tool") "tool_id")) = some tool_def)
    (h5 : netCheck hostname an al (dget step "tool") tool_def
      (strOf (dget (dget step "tool") "tool_id")) = Option.none)
    (h6 : fsCheck cwd roots (dget step "tool")
      (strOf (dget (dget step "tool") "tool_id")) = Option.none)
    (h7 : ¬ (pyTruthy (dget tool_def "destructive") = true ∧
      ¬ ctx.allow_destructive = true)) :
    stepDeny cwd hostname reg ctx roots an al step =
      (if ctx.dry_run ∧ ctx.strict_dry_run ∧
          ¬ pyTruthy (dgetD tool_def "supports_dry_run" (PyVal.bool false)) then
        some (deny "dry_run.not_supported" ("Tool does not support dry-run: " ++
          strOf (dget (dget step "tool") "tool_id")))
      else if ctx.dry_run ∧ isFalseVal (dget (dget step "tool") "dry_run_ok") then
        some (deny "dry_run.step_not_marked_ok" ("Step not marked dry-run compatible: " ++
          strOf (dget (dget step "tool") "tool_id")))
      else Option.none) := by
  unfold stepDeny
  dsimp only []
  rw [h1, h2, h3, h4]
  simp [h5, h6, h7]
  intro hA hB
  exact absurd ⟨hA, by simp [hB]⟩ h7

/-- C6 witness: the amended characterization evaluated at a concrete
non-strict dry run with a dry_run_ok=false step. -/
theorem C6_dry_run_gates_witness :
    stepDeny [] hostNone bootstrapRegistry
      { run_id := "run", dry_run := true, strict_dry_run := false }
      [["tmp"]] false [] (fsListStep "s1" "/tmp" false) =
      some (deny "dry_run.step_not_marked_ok"
        "Step not marked dry-run compatible: fs.list") :=
  C6_dry_run_gates [] hostNone bootstrapRegistry
    { run_id := "run", dry_run := true, strict_dry_run := false }
    [["tmp"]] false [] (fsListStep "s1" "/tmp" false)
    (regToolDef "fs.list" "List directory entries" "filesystem" true
      (objSchema [("path", "string")] ["path"]))
    rfl rfl rfl rfl rfl rfl (by decide)

theorem map_strOf_str (al : List String) : List.map (strOf ∘ PyVal.str) al = al := by
  induction al with
  | nil => rfl
  | cons x xs ih => simp [strOf, ih, Function.comp]

theorem all_nonEmpty_of_wf (al : List String) (hwf : ∀ x ∈ al, x ≠ "") :
    (al.map PyVal.str).all isNonEmptyStr = true := by
  induction al with
  | nil => rfl
  | cons x xs ih =>
    simp only [List.map_cons, List.all_cons, Bool.and_eq_true]
    constructor
    · simp [isNonEmptyStr, hwf x (by simp)]
    · exact ih (fun y hy => hwf y (by simp [hy]))

theorem evaluate_netPlan (cwd : List String) (hostname : String → Option String)
    (reg : Registry) (ctx : RuntimeContext) (root : String) (al : List String)
    (tid : String) (args : PyVal) (hroot : root ≠ "") (hwf : ∀ x ∈ al, x ≠ "") :
    evaluate cwd hostname reg ctx (netPlan root al tid args) =
      match stepDeny cwd hostname reg ctx [resolveAbs cwd root] true al
        (netStep tid args) with
      | some r => r
      | Option.none => allowResult := by
  unfold evaluate
  dsimp only [netPlan]
  simp [dget, dget.go, dgetD, dgetD.goD, normalize_roots, PyVal.asStr, hroot,
    isNoneVal, PyVal.isList, PyVal.isDict, all_nonEmpty_of_wf al hwf, listOf,
    pyTruthy, map_strOf_str, isNonEmptyStr, stepsDeny]
  cases hsd : stepDeny cwd hostname reg ctx [resolveAbs cwd root] true al (netStep tid args) <;>
    simp [stepsDeny, hsd]

theorem netCheck_host_resolves (hostname : String → Option String) (al : List String)
    (td : PyVal) (tid url h : String)
    (hse : eqStrVal (dget td "side_effects") "network" = true)
    (hne : al ≠ []) (hu : url ≠ "") (hh : hostname url = some h) (hh0 : h ≠ "") :
    netCheck hostname true al
      (PyVal.dict [("tool_id", PyVal.str tid), ("args", PyVal.dict [("url", PyVal.str url)])])
      td tid =
      (if hostAllowed al h = true then Option.none
       else some (deny "scope.network_host_denied"
         ("Network host is not in allowlist: " ++ h))) := by
  unfold netCheck
  dsimp only []
  rw [hse]
  simp [hne, dget, dget.go, dgetD, dgetD.goD, PyVal.isDict, pyTruthy, hu,
    isNonEmptyStr, strOf, hh, hh0]
  by_cases hA : hostAllowed al h = true <;> simp [hA]

theorem netCheck_invalid_url (hostname : String → Option String) (al : List String)
    (td : PyVal) (tid url : String)
    (hse : eqStrVal (dget td "side_effects") "network" = true)
    (hne : al ≠ []) (hu : url ≠ "") (hh : hostname url = Option.none) :
    netCheck hostname true al
      (PyVal.dict [("tool_id", PyVal.str tid), ("args", PyVal.dict [("url", PyVal.str url)])])
      td tid =
      some (deny "scope.network_invalid_url"
        ("Invalid URL for network tool allowlist enforcement: " ++ tid)) := by
  unfold netCheck
  dsimp only []
  rw [hse]
  simp [hne, dget, dget.go, dgetD, dgetD.goD, PyVal.isDict, pyTruthy, hu,
    isNonEmptyStr, strOf, hh]

theorem netCheck_missing_url (hostname : String → Option String) (al : List String)
    (td : PyVal) (tid : String)
    (hse : eqStrVal (dget td "side_effects") "network" = true)
    (hne : al ≠ []) :
    netCheck hostname true al
      (PyVal.dict [("tool_id", PyVal.str tid), ("args", PyVal.dict [])])
      td tid =
      some (deny "scope.network_missing_url"
        ("Network tool requires args.url or args.endpoint to enforce allowlist: " ++ tid)) := by
  unfold netCheck
  dsimp only []
  rw [hse]
  simp [hne, dget, dget.go, dgetD, dgetD.goD, PyVal.isDict, pyTruthy,
    isNonEmptyStr]

theorem stepDeny_netStep_some (cwd : List String) (hostname : String → Option String)
    (reg : Registry) (ctx : RuntimeContext) (roots : List (List String))
    (an : Bool) (al : List String) (tid : String) (args : PyVal) (td : PyVal)
    (r : PolicyResult) (htid : tid ≠ "") (hreg : regGet reg tid = some td)
    (hnet : netCheck hostname an al
      (PyVal.dict [("tool_id", PyVal.str tid), ("args", args)]) td tid = some r) :
    stepDeny cwd hostname reg ctx roots an al (netStep tid args) = some r := by
  unfold stepDeny netStep
  dsimp only []
  simp [dget, dget.go, PyVal.isDict, isNonEmptyStr, htid, strOf, hreg, hnet]

theorem fsCheck_codes (cwd : List String) (roots : List (List String))
    (tc : PyVal) (tid : String) (r : PolicyResult)
    (h : fsCheck cwd roots tc tid = some r) :
    r.reason_codes = ["plan.args_invalid"] ∨ r.reason_codes = ["scope.out_of_bounds"] := by
  unfold fsCheck at h
  dsimp only [] at h
  repeat' split at h
  all_goals first
    | (injection h with h; exact Or.inl (h ▸ rfl))
    | (injection h with h; exact Or.inr (h ▸ rfl))
    | exact absurd h (by simp)

theorem stepDeny_netStep_codes (cwd : List String) (hostname : String → Option String)
    (reg : Registry) (ctx : RuntimeContext) (roots : List (List String))
    (an : Bool) (al : List String) (tid : String) (args : PyVal) (td : PyVal)
    (r : PolicyResult) (htid : tid ≠ "") (hreg : regGet reg tid = some td)
    (hnet : netCheck hostname an al
      (PyVal.dict [("tool_id", PyVal.str tid), ("args", args)]) td tid = Option.none)
    (hr : stepDeny cwd hostname reg ctx roots an al (netStep tid args) = some r) :
    r.reason_codes ≠ ["scope.network_host_denied"] := by
  unfold stepDeny netStep at hr
  dsimp only [] at hr
  simp [dget, dget.go, PyVal.isDict, isNonEmptyStr, htid, strOf, hreg, hnet] at hr
  split at hr
  · rename_i r2 heq
    injection hr with hr; subst hr
    rcases fsCheck_codes _ _ _ _ _ heq with hc | hc <;> simp [hc]
  · repeat' split at hr
    all_goals first
      | (injection hr with hr; subst hr; simp [deny])
      | exact absurd hr (by simp)

theorem hostAllowed_iff (al : List String) (h : String) :
    hostAllowed al h = true ↔
      ("*" ∈ al ∨ (∃ pat ∈ al, sStartsWith pat "*." = true ∧
        sEndsWith h (sDrop pat 1) = true) ∨ h ∈ al) := by
  unfold hostAllowed
  simp only [List.any_eq_true, decide_eq_true_eq]
  constructor
  · rintro ⟨pat, hmem, hp | ⟨hs, he⟩ | hp⟩
    · exact Or.inl (hp ▸ hmem)
    · exact Or.inr (Or.inl ⟨pat, hmem, hs, he⟩)
    · exact Or.inr (Or.inr (hp ▸ hmem))
  · rintro (hm | ⟨pat, hmem, hs, he⟩ | hm)
    · exact ⟨"*", hm, Or.inl rfl⟩
    · exact ⟨pat, hmem, Or.inr (Or.inl ⟨hs, he⟩)⟩
    · exact ⟨h, hm, Or.inr (Or.inr rfl)⟩

/-- C8: for a single-step plan invoking a network-side-effect tool under
allow_network=true and a non-empty allowlist of non-empty strings, when the
URL parses to a non-empty host h, evaluate does not deny with
scope.network_host_denied iff the allowlist contains "*", or some pattern of
the form *.d (a pattern starting with "*.") with h ending in ".d" (the
pattern minus its leading star), or an entry equal to h; a URL with no
parseable host, or absent url/endpoint args, is denied. -/
theorem C8_network_allowlist (cwd : List String) (hostname : String → Option String)
    (reg : Registry) (ctx : RuntimeContext) (root : String) (al : List String)
    (tid : String) (td : PyVal)
    (hroot : root ≠ "") (hne : al ≠ []) (hwf : ∀ x ∈ al, x ≠ "")
    (htid : tid ≠ "") (hreg : regGet reg tid = some td)
    (hse : eqStrVal (dget td "side_effects") "network" = true) :
    (∀ url h, url ≠ "" → hostname url = some h → h ≠ "" →
      ((evaluate cwd hostname reg ctx
          (netPlan root al tid (PyVal.dict [("url", PyVal.str url)]))).reason_codes ≠
        ["scope.network_host_denied"] ↔
        ("*" ∈ al ∨ (∃ pat ∈ al, sStartsWith pat "*." = true ∧
          sEndsWith h (sDrop pat 1) = true) ∨ h ∈ al))) ∧
    (∀ url, url ≠ "" → hostname url = Option.none →
      (evaluate cwd hostname reg ctx
        (netPlan root al tid (PyVal.dict [("url", PyVal.str url)]))).reason_codes =
        ["scope.network_invalid_url"]) ∧
    ((evaluate cwd hostname reg ctx
        (netPlan root al tid (PyVal.dict []))).reason_codes =
        ["scope.network_missing_url"]) := by
  refine ⟨?_, ?_, ?_⟩
  · intro url h hu hh hh0
    rw [evaluate_netPlan cwd hostname reg ctx root al tid _ hroot hwf]
    rw [← hostAllowed_iff]
    by_cases hA : hostAllowed al h = true
    · constructor
      · intro _; exact hA
      · intro _
        have hnet := netCheck_host_resolves hostname al td tid url h hse hne hu hh hh0
        rw [hA] at hnet
        simp only [if_pos rfl] at hnet
        cases hsd : stepDeny cwd hostname reg ctx [resolveAbs cwd root] true al
            (netStep tid (PyVal.dict [("url", PyVal.str url)])) with
        | none => simp [allowResult]
        | some r =>
          simp only []
          exact stepDeny_netStep_codes cwd hostname reg ctx [resolveAbs cwd root]
            true al tid _ td r htid hreg hnet hsd
    · have hnet := netCheck_host_resolves hostname al td tid url h hse hne hu hh hh0
      rw [if_neg hA] at hnet
      have hsd := stepDeny_netStep_some cwd hostname reg ctx [resolveAbs cwd root]
        true al tid _ td _ htid hreg hnet
      rw [hsd]
      simp [deny, hA]
  · intro url hu hh
    rw [evaluate_netPlan cwd hostname reg ctx root al tid _ hroot hwf]
    have hnet := netCheck_invalid_url hostname al td tid url hse hne hu hh
    have hsd := stepDeny_netStep_some cwd hostname reg ctx [resolveAbs cwd root]
      true al tid _ td _ htid hreg hnet
    rw [hsd]
    rfl
  · rw [evaluate_netPlan cwd hostname reg ctx root al tid _ hroot hwf]
    have hnet := netCheck_missing_url hostname al td tid hse hne
    have hsd := stepDeny_netStep_some cwd hostname reg ctx [resolveAbs cwd root]
      true al tid _ td _ htid hreg hnet
    rw [hsd]
    rfl

theorem plan_configure_intent (io p : PyVal) (h : plan_configure io = Except.ok p) :
    dget p "intent" = io := by
  unfold plan_configure at h
  injection h with h
  subst h
  simp [dget, dget.go]

theorem plan_legacy_tidy_intent (eu : String → String) (rx : String → String → Bool)
    (now : Int) (io p : PyVal) (h : plan_legacy_tidy eu rx now io = Except.ok p) :
    dget p "intent" = io := by
  unfold plan_legacy_tidy at h
  dsimp only [] at h
  repeat' split at h
  all_goals first
    | (unfold Except.map at h
       generalize hB : build_moves_from_entries_config _ _ _ _ _ _ _ _ = B at h
       cases B with
       | error e => exact absurd h (by simp)
       | ok mr =>
         dsimp only [] at h
         injection h with h2
         subst h2
         simp [dget, dget.go])
    | exact absurd h (by simp)

theorem plan_tidy_from_config_intent (lc : String → Except String PyVal)
    (eu : String → String) (rx : String → String → Bool) (now : Int)
    (io p : PyVal) (pv : Bool)
    (h : plan_tidy_from_config lc eu rx now io pv = Except.ok p) :
    dget p "intent" = io := by
  unfold plan_tidy_from_config at h
  dsimp only [] at h
  unfold Except.bind at h
  repeat' split at h
  all_goals try simp only [] at h
  repeat' split at h
  all_goals first
    | (unfold Except.map at h
       generalize hB : build_moves_from_entries_config _ _ _ _ _ _ _ _ = B at h
       cases B with
       | error e => exact absurd h (by simp)
       | ok mr =>
         dsimp only [] at h
         injection h with h2
         subst h2
         simp [dget, dget.go])
    | exact absurd h (by simp)

theorem plan_restore_from_config_intent (lc : String → Except String PyVal)
    (eu : String → String) (io p : PyVal)
    (h : plan_restore_from_config lc eu io = Except.ok p) :
    dget p "intent" = io := by
  unfold plan_restore_from_config at h
  dsimp only [] at h
  unfold Except.bind at h
  repeat' split at h
  all_goals try simp only [] at h
  repeat' split at h
  all_goals first
    | (unfold Except.map at h
       generalize hB : build_restore_moves_config _ _ _ _ _ = B at h
       cases B with
       | error e => exact absurd h (by simp)
       | ok mr =>
         dsimp only [] at h
         injection h with h2
         subst h2
         simp [dget, dget.go])
    | exact absurd h (by simp)

set_option maxHeartbeats 2000000 in
theorem planner_plan_checks_scope (intent : PyVal) (io : String × PyVal)
    (h : planner_plan_checks intent = Except.ok io) :
    dget io.2 "scope" = plannerScopeCopy (dget intent "scope") ∧
    hasKey (dget io.2 "scope") "network_hosts_allowlist" = false := by
  unfold planner_plan_checks at h
  dsimp only [] at h
  repeat' split at h
  all_goals first
    | (injection h with h2
       subst h2
       refine ⟨?_, ?_⟩ <;> simp [dget, dget.go, plannerScopeCopy, hasKey]
       done)
    | (exfalso; simp_all [dget, dget.go, PyVal.isList, listOf]; done)
    | exact absurd h (by simp)

/-- C4: what BuiltinDesktopPlanner.plan actually preserves of the declared
scope. Every plan it returns carries an intent copy whose scope is the
two-field projection {fs_roots, allow_network} of the caller's scope
(planner.py line 84); in particular the copy never contains a
network_hosts_allowlist key, whatever the caller declared. -/
theorem C4_scope_projection (lc : String → Except String PyVal)
    (eu : String → String) (rx : String → String → Bool) (now : Int)
    (intent plan : PyVal)
    (h : planner_plan lc eu rx now intent = Except.ok plan) :
    dget (dget plan "intent") "scope" = plannerScopeCopy (dget intent "scope") ∧
    hasKey (dget (dget plan "intent") "scope") "network_hosts_allowlist" = false := by
  unfold planner_plan at h
  generalize hC : planner_plan_checks intent = C at h
  cases C with
  | error e => exact absurd h (by simp [Except.bind])
  | ok io =>
    have hs := planner_plan_checks_scope intent io hC
    unfold Except.bind at h
    dsimp only [] at h
    repeat' split at h
    all_goals first
      | (rw [plan_legacy_tidy_intent eu rx now io.2 plan h]; exact hs)
      | (rw [plan_configure_intent io.2 plan h]; exact hs)
      | (rw [plan_tidy_from_config_intent lc eu rx now io.2 plan true h]; exact hs)
      | (rw [plan_tidy_from_config_intent lc eu rx now io.2 plan false h]; exact hs)
      | (rw [plan_restore_from_config_intent lc eu io.2 plan h]; exact hs)
      | exact absurd h (by simp)

/-- C4 counterexample: the planner accepts c4Intent, whose scope declares a
network_hosts_allowlist, yet the scope stored in the returned plan's intent
copy has no network_hosts_allowlist key, so the copy is not the declared
scope unchanged. -/
theorem C4_counterexample :
    hasKey (dget c4Intent "scope") "network_hosts_allowlist" = true ∧
    planner_plan (fun _ => Except.error "config.not_found") (fun s => s)
      rxNone 0 c4Intent = Except.ok c4Plan ∧
    hasKey (dget (dget c4Plan "intent") "scope") "network_hosts_allowlist" = false :=
  ⟨rfl, rfl, rfl⟩

theorem C4_scope_projection_witness :
    dget (dget c4Plan "intent") "scope" = plannerScopeCopy (dget c4Intent "scope") ∧
    hasKey (dget (dget c4Plan "intent") "scope") "network_hosts_allowlist" = false :=
  C4_scope_projection (fun _ => Except.error "config.not_found") (fun s => s)
    rxNone 0 c4Intent c4Plan rfl

theorem findFree_some_spec (ex : Pth → Bool) (dst : Pth) :
    ∀ fuel i n, findFree ex dst i fuel = some n →
      ex (suffixCandidate dst n) = false ∧ i ≤ n ∧ n < i + fuel ∧
      ∀ m, i ≤ m → m < n → ex (suffixCandidate dst m) = true := by
  intro fuel
  induction fuel with
  | zero => intro i n h; simp [findFree] at h
  | succ fuel ih =>
    intro i n h
    unfold findFree at h
    split at h
    · rename_i hfree
      injection h with h
      subst h
      exact ⟨by simpa using hfree, le_refl i, by omega,
        fun m h1 h2 => absurd (lt_of_le_of_lt h1 h2) (lt_irrefl i)⟩
    · rename_i htaken
      obtain ⟨ha, hb, hc, hd⟩ := ih (i + 1) n h
      refine ⟨ha, by omega, by omega, ?_⟩
      intro m h1 h2
      rcases eq_or_lt_of_le h1 with he | he
      · subst he; simpa using htaken
      · exact hd m (by omega) h2

theorem findFree_none_of_all (ex : Pth → Bool) (dst : Pth) :
    ∀ fuel i, (∀ m, i ≤ m → m < i + fuel → ex (suffixCandidate dst m) = true) →
      findFree ex dst i fuel = Option.none := by
  intro fuel
  induction fuel with
  | zero => intro i _; rfl
  | succ fuel ih =>
    intro i hall
    unfold findFree
    rw [if_neg]
    · exact ih (i + 1) (fun m h1 h2 => hall m (by omega) (by omega))
    · simp [hall i (le_refl i) (by omega)]

theorem findFree_complete (ex : Pth → Bool) (dst : Pth) :
    ∀ fuel i n, i ≤ n → n < i + fuel → ex (suffixCandidate dst n) = false →
      (∀ m, i ≤ m → m < n → ex (suffixCandidate dst m) = true) →
      findFree ex dst i fuel = some n := by
  intro fuel
  induction fuel with
  | zero => intro i n h1 h2; omega
  | succ fuel ih =>
    intro i n h1 h2 hfree hmin
    unfold findFree
    rcases eq_or_lt_of_le h1 with he | he
    · subst he; rw [if_pos (by simp [hfree])]
    · rw [if_neg (by simp [hmin i (le_refl i) he])]
      exact ih (i + 1) n (by omega) (by omega) hfree (fun m hm1 hm2 => hmin m (by omega) hm2)

/-- C7: in commit mode with on_conflict=suffix_increment, an existing
source and an existing destination, fs.move renames the source to
stem(n)suffix in the destination directory for the lowest n >= 1 whose
candidate does not exist at resolution time (the "(n)" inserted before the
suffix by suffixCandidate); when every candidate up to the fixed bound of
10000 tries exists, it fails with FileExistsError and performs no move. -/
theorem C7_suffix_increment (ex : Pth → Bool) (args : PyVal) (sfrom sto : String)
    (hf : dget args "from" = PyVal.str sfrom) (hf0 : sfrom ≠ "")
    (ht : dget args "to" = PyVal.str sto) (ht0 : sto ≠ "")
    (hoc : dgetD args "on_conflict" (PyVal.str "error") = PyVal.str "suffix_increment")
    (how : ¬ ((dgetD args "overwrite" (PyVal.bool false)).isBool = true ∧
      pyTruthy (dgetD args "overwrite" (PyVal.bool false)) = true))
    (hsrc : ex (parsePath sfrom) = true) (hdst : ex (parsePath sto) = true) :
    (∀ n, 1 ≤ n → n ≤ 10000 → ex (suffixCandidate (parsePath sto) n) = false →
      (∀ m, 1 ≤ m → m < n → ex (suffixCandidate (parsePath sto) m) = true) →
      ∃ out, fs_move_run ex args false = Except.ok out ∧
        out.renamed = some (parsePath sfrom, suffixCandidate (parsePath sto) n)) ∧
    ((∀ m, 1 ≤ m → m ≤ 10000 → ex (suffixCandidate (parsePath sto) m) = true) →
      fs_move_run ex args false = Except.error "FileExistsError") := by
  constructor
  · intro n h1 h2 hfree hmin
    have hws : with_suffix_increment ex (parsePath sto) 10000 =
        Except.ok (suffixCandidate (parsePath sto) n) := by
      unfold with_suffix_increment
      rw [findFree_complete ex (parsePath sto) 10000 1 n h1 (by omega) hfree hmin]
    unfold fs_move_run
    rw [hf, ht, hoc]
    simp [isNonEmptyStr, hf0, ht0, how, eqStrVal, strOf, hdst, hsrc, hws, Except.bind]
  · intro hall
    have hws : with_suffix_increment ex (parsePath sto) 10000 =
        Except.error "FileExistsError" := by
      unfold with_suffix_increment
      rw [findFree_none_of_all ex (parsePath sto) 10000 1
        (fun m hm1 hm2 => hall m hm1 (by omega))]
    unfold fs_move_run
    rw [hf, ht, hoc]
    simp [isNonEmptyStr, hf0, ht0, how, eqStrVal, strOf, hdst, hsrc, hws, Except.bind]


theorem C7_suffix_increment_witness :
    ∃ out, fs_move_run
        (fun p => p == ["d", "a.txt"] || p == ["d", "b.txt"])
        (PyVal.dict [("from", PyVal.str "/d/a.txt"), ("to", PyVal.str "/d/b.txt"),
          ("on_conflict", PyVal.str "suffix_increment")]) false = Except.ok out ∧
      out.renamed = some (["d", "a.txt"], ["d", "b(1).txt"]) :=
  (C7_suffix_increment
    (fun p => p == ["d", "a.txt"] || p == ["d", "b.txt"])
    (PyVal.dict [("from", PyVal.str "/d/a.txt"), ("to", PyVal.str "/d/b.txt"),
      ("on_conflict", PyVal.str "suffix_increment")])
    "/d/a.txt" "/d/b.txt" rfl (by decide) rfl (by decide) rfl (by decide)
    (by decide) (by decide)).1 1 (by decide) (by decide) (by decide)
    (fun m h1 h2 => absurd (lt_of_le_of_lt h1 h2) (lt_irrefl 1))

/-- C8 witness: with allowlist [*.example.com] and request host
api.example.com the policy does not deny with scope.network_host_denied. -/
theorem C8_network_allowlist_witness :
    (evaluate [] (fun _ => some "api.example.com")
      (("net.http", netHttpDef) :: bootstrapRegistry) {}
      (netPlan "/tmp" ["*.example.com"] "net.http"
        (PyVal.dict [("url", PyVal.str "https://api.example.com/ping")]))).reason_codes ≠
      ["scope.network_host_denied"] :=
  ((C8_network_allowlist [] (fun _ => some "api.example.com")
      (("net.http", netHttpDef) :: bootstrapRegistry) {} "/tmp" ["*.example.com"]
      "net.http" netHttpDef (by decide) (by decide)
      (by intro x hx; simp at hx; simp [hx]) (by decide) rfl rfl).1
    "https://api.example.com/ping" "api.example.com" (by decide) rfl (by decide)).mpr
    (Or.inr (Or.inl ⟨"*.example.com", by decide, rfl, rfl⟩))

theorem buildMovesLoop_order (rx : String → String → Bool) (now : Int)
    (root staging : String) (ign : List String) (cs : String) (fm : PyVal)
    (um : String) (rules : List PyVal) (inc : Bool) (exc : List String) :
    ∀ entries i moves dirs,
      buildMovesLoop rx now root staging ign cs fm um rules inc exc i entries =
        Except.ok (moves, dirs) →
      (∃ idxs : List Nat,
        moves.map stepIdOf = idxs.map (fun j => "commit_move_" ++ pad4 j) ∧
        List.Pairwise (· < ·) idxs ∧
        (∀ j ∈ idxs, i ≤ j ∧ j < i + entries.length)) ∧
      (moves.map moveFrom).Sublist
        ((snapshotNames entries).map (fun n => root ++ "/" ++ n)) := by
  intro entries
  induction entries with
  | nil =>
    intro i moves dirs h
    unfold buildMovesLoop at h
    injection h with h
    injection h with h1 h2
    subst h1
    exact ⟨⟨[], rfl, List.Pairwise.nil, by simp⟩, by simp [snapshotNames]⟩
  | cons item0 rest ih =>
    intro i moves dirs h
    unfold buildMovesLoop at h
    dsimp only [] at h
    have bump : ∀ moves dirs,
        buildMovesLoop rx now root staging ign cs fm um rules inc exc (i + 1) rest =
          Except.ok (moves, dirs) →
        (∃ idxs : List Nat,
          moves.map stepIdOf = idxs.map (fun j => "commit_move_" ++ pad4 j) ∧
          List.Pairwise (· < ·) idxs ∧
          (∀ j ∈ idxs, i ≤ j ∧ j < i + (item0 :: rest).length)) ∧
        (moves.map moveFrom).Sublist
          ((snapshotNames rest).map (fun n => root ++ "/" ++ n)) := by
      intro moves dirs hc
      obtain ⟨⟨idxs, hmap, hpw, hbd⟩, hsub⟩ := ih (i + 1) moves dirs hc
      refine ⟨⟨idxs, hmap, hpw, ?_⟩, hsub⟩
      intro j hj
      have := hbd j hj
      simp only [List.length_cons]
      omega
    by_cases hd : item0.isDict = true
    · rw [if_pos hd] at h
      dsimp only [] at h
      split at h
      · -- no valid name: cont
        obtain ⟨hx, hsub⟩ := bump moves dirs h
        refine ⟨hx, ?_⟩
        rename_i hname
        simpa [snapshotNames, List.filterMap_cons, hd, hname] using hsub
      · -- named dict entry
        rename_i hname0
        split at h
        · -- should_skip: cont
          obtain ⟨hx, hsub⟩ := bump moves dirs h
          refine ⟨hx, ?_⟩
          simp only [snapshotNames, List.filterMap_cons, hd, if_true,
            show isNonEmptyStr (dget item0 "name") = true by simpa using hname0]
          all_goals first
            | exact hsub.trans (List.sublist_cons_self _ _)
            | exact hsub
        · split at h
          · -- directory without include_dirs: cont
            obtain ⟨hx, hsub⟩ := bump moves dirs h
            refine ⟨hx, ?_⟩
            simp only [snapshotNames, List.filterMap_cons, hd, if_true,
              show isNonEmptyStr (dget item0 "name") = true by simpa using hname0]
            all_goals first
              | exact hsub.trans (List.sublist_cons_self _ _)
              | exact hsub
          · split at h
            · -- neither file nor dir: cont
              obtain ⟨hx, hsub⟩ := bump moves dirs h
              refine ⟨hx, ?_⟩
              simp only [snapshotNames, List.filterMap_cons, hd, if_true,
                show isNonEmptyStr (dget item0 "name") = true by simpa using hname0]
              all_goals first
                | exact hsub.trans (List.sublist_cons_self _ _)
                | exact hsub
            · -- routed entry
              unfold Except.bind at h
              split at h
              · exact absurd h (by simp)
              · rename_i ds hv
                unfold Except.map at h
                split at h
                · exact absurd h (by simp)
                · rename_i mr hc
                  simp only [Prod.mk.injEq, Except.ok.injEq] at h
                  obtain ⟨h1, h2⟩ := h
                  subst h1
                  subst h2
                  obtain ⟨⟨idxs, hmap, hpw, hbd⟩, hsub⟩ := ih (i + 1) mr.1 mr.2 hc
                  refine ⟨⟨i :: idxs, ?_, ?_, ?_⟩, ?_⟩
                  · simp only [List.map_cons, hmap]
                    rfl
                  · exact List.Pairwise.cons
                      (fun j hj => by have := (hbd j hj).1; omega) hpw
                  · intro j hj
                    rcases List.mem_cons.mp hj with hj | hj
                    · subst hj; simp only [List.length_cons]; omega
                    · have := hbd j hj; simp only [List.length_cons]; omega
                  · simp only [List.map_cons]
                    simp only [snapshotNames, List.filterMap_cons, hd, if_true,
                      show isNonEmptyStr (dget item0 "name") = true by simpa using hname0]
                    exact List.Sublist.cons₂ _ hsub
    · rw [if_neg hd] at h
      cases item0 with
      | str s =>
        dsimp only [] at h
        split at h
        · -- empty string name: cont
          obtain ⟨hx, hsub⟩ := bump moves dirs h
          refine ⟨hx, ?_⟩
          exact hsub.trans (by simp [snapshotNames, List.filterMap_cons, PyVal.isDict])
        · rename_i hname0
          split at h
          · obtain ⟨hx, hsub⟩ := bump moves dirs h
            refine ⟨hx, ?_⟩
            simp only [snapshotNames, List.filterMap_cons, PyVal.isDict]
            exact hsub.trans (List.sublist_cons_self _ _)
          · split at h
            · obtain ⟨hx, hsub⟩ := bump moves dirs h
              refine ⟨hx, ?_⟩
              simp only [snapshotNames, List.filterMap_cons, PyVal.isDict]
              exact hsub.trans (List.sublist_cons_self _ _)
            · split at h
              · obtain ⟨hx, hsub⟩ := bump moves dirs h
                refine ⟨hx, ?_⟩
                simp only [snapshotNames, List.filterMap_cons, PyVal.isDict]
                exact hsub.trans (List.sublist_cons_self _ _)
              · unfold Except.bind at h
                split at h
                · exact absurd h (by simp)
                · rename_i ds hv
                  unfold Except.map at h
                  split at h
                  · exact absurd h (by simp)
                  · rename_i mr hc
                    simp only [Prod.mk.injEq, Except.ok.injEq] at h
                    obtain ⟨h1, h2⟩ := h
                    subst h1
                    subst h2
                    obtain ⟨⟨idxs, hmap, hpw, hbd⟩, hsub⟩ := ih (i + 1) mr.1 mr.2 hc
                    refine ⟨⟨i :: idxs, ?_, ?_, ?_⟩, ?_⟩
                    · simp only [List.map_cons, hmap]
                      rfl
                    · exact List.Pairwise.cons
                        (fun j hj => by have := (hbd j hj).1; omega) hpw
                    · intro j hj
                      rcases List.mem_cons.mp hj with hj | hj
                      · subst hj; simp only [List.length_cons]; omega
                      · have := hbd j hj; simp only [List.length_cons]; omega
                    · simp only [List.map_cons]
                      simp only [snapshotNames, List.filterMap_cons, PyVal.isDict]
                      exact List.Sublist.cons₂ _ hsub
      | none =>
        obtain ⟨hx, hsub⟩ := bump moves dirs h
        exact ⟨hx, by simpa [snapshotNames, List.filterMap_cons, PyVal.isDict] using hsub⟩
      | bool b =>
        obtain ⟨hx, hsub⟩ := bump moves dirs h
        exact ⟨hx, by simpa [snapshotNames, List.filterMap_cons, PyVal.isDict] using hsub⟩
      | int n =>
        obtain ⟨hx, hsub⟩ := bump moves dirs h
        exact ⟨hx, by simpa [snapshotNames, List.filterMap_cons, PyVal.isDict] using hsub⟩
      | list xs =>
        obtain ⟨hx, hsub⟩ := bump moves dirs h
        exact ⟨hx, by simpa [snapshotNames, List.filterMap_cons, PyVal.isDict] using hsub⟩
      | dict kvs => exact absurd (show (PyVal.dict kvs).isDict = true from rfl) hd


/-- C9 amended: the desktop-tidy move builder processes entries in snapshot
order, not sorted by name: the generated fs.move steps carry strictly
ascending numeric step_id suffixes equal to the 1-based snapshot positions
of their entries (skipped entries leave gaps), and the sequence of source
names follows the snapshot order (it is a sublist of the snapshot name
sequence). -/
theorem C9_snapshot_order (rx : String → String → Bool) (now : Int)
    (root staging : String) (cfg : PyVal) (entries_list : List PyVal)
    (inc : Bool) (exc : List String) (moves : List PyVal) (dirs : List String)
    (h : build_moves_from_entries_config rx now root staging cfg
      (PyVal.list entries_list) inc exc = Except.ok (moves, dirs)) :
    (∃ idxs : List Nat,
      moves.map stepIdOf = idxs.map (fun j => "commit_move_" ++ pad4 j) ∧
      List.Pairwise (· < ·) idxs ∧
      ∀ j ∈ idxs, 1 ≤ j ∧ j ≤ entries_list.length) ∧
    (moves.map moveFrom).Sublist
      ((snapshotNames entries_list).map (fun n => root ++ "/" ++ n)) := by
  unfold build_moves_from_entries_config at h
  dsimp only [] at h
  rw [if_neg (by simp [isNoneVal]), if_neg (by simp [PyVal.isList])] at h
  unfold Except.map at h
  split at h
  · exact absurd h (by simp)
  · rename_i mr hc
    simp only [Prod.mk.injEq, Except.ok.injEq] at h
    obtain ⟨h1, h2⟩ := h
    subst h1
    obtain ⟨⟨idxs, hmap, hpw, hbd⟩, hsub⟩ :=
      buildMovesLoop_order rx now root staging _ _ _ _ _ _ _
        entries_list 1 mr.1 mr.2 (by simpa [listOf] using hc)
    exact ⟨⟨idxs, hmap, hpw,
      fun j hj => ⟨(hbd j hj).1, by have := (hbd j hj).2; omega⟩⟩, hsub⟩

/-- C9 counterexample: with the snapshot ["b.txt", "a.txt"] the moves are
generated in snapshot order b.txt before a.txt, although "b.txt" is
lexicographically greater - refuting sorted-by-name ordering. -/
theorem C9_counterexample :
    c9Build.map (fun mr => mr.1.map (fun s => (stepIdOf s, moveFrom s))) =
      Except.ok [("commit_move_0001", "/r/b.txt"), ("commit_move_0002", "/r/a.txt")] ∧
    strLe "b.txt" "a.txt" = false :=
  ⟨rfl, rfl⟩

theorem C9_snapshot_order_witness :
    (∃ idxs : List Nat,
      c9Moves.map stepIdOf = idxs.map (fun j => "commit_move_" ++ pad4 j) ∧
      List.Pairwise (· < ·) idxs ∧
      ∀ j ∈ idxs, 1 ≤ j ∧ j ≤ c9Entries.length) ∧
    (c9Moves.map moveFrom).Sublist
      ((snapshotNames c9Entries).map (fun n => "/r" ++ "/" ++ n)) :=
  C9_snapshot_order rxNone 0 "/r" "/s" (tidyCfg "Pictures" "Downloads") c9Entries
    false [] c9Moves c9Dirs rfl


theorem fsCheck_out_of_bounds (cwd : List String) (roots : List (List String))
    (tc : PyVal) (tid : String)
    (hfs : sStartsWith tid "fs." = true)
    (ha : (dgetD tc "args" (PyVal.dict [])).isDict = true)
    (hbad : ∃ p ∈ ((["path", "from", "to"].map (dget (dgetD tc "args" (PyVal.dict [])))).filter
        isNonEmptyStr).map strOf, is_within_any_root cwd p roots = false) :
    ∃ m, fsCheck cwd roots tc tid =
      some { decision := "deny", reason_codes := ["scope.out_of_bounds"], summary := some m } := by
  obtain ⟨p, hp, hpw⟩ := hbad
  unfold fsCheck
  rw [if_neg (by simp [hfs]), if_neg (by simp [ha])]
  dsimp only []
  cases hf : (((["path", "from", "to"].map (dget (dgetD tc "args" (PyVal.dict [])))).filter
      isNonEmptyStr).map strOf).find? (fun q => decide (¬ is_within_any_root cwd q roots = true)) with
  | none =>
    exact absurd (List.find?_eq_none.mp hf p hp) (by simp [hpw])
  | some q =>
    exact ⟨_, rfl⟩

theorem stepDeny_fs_some (cwd : List String) (hostname : String → Option String)
    (reg : Registry) (ctx : RuntimeContext) (roots : List (List String))
    (an : Bool) (al : List String) (step td : PyVal) (r : PolicyResult)
    (hs1 : step.isDict = true)
    (hs2 : (dget step "tool").isDict = true)
    (hs3 : isNonEmptyStr (dget (dget step "tool") "tool_id") = true)
    (hs4 : regGet reg (strOf (dget (dget step "tool") "tool_id")) = some td)
    (hnet : netCheck hostname an al (dget step "tool") td
      (strOf (dget (dget step "tool") "tool_id")) = Option.none)
    (hfc : fsCheck cwd roots (dget step "tool")
      (strOf (dget (dget step "tool") "tool_id")) = some r) :
    stepDeny cwd hostname reg ctx roots an al step = some r := by
  unfold stepDeny
  dsimp only []
  rw [hs1, hs2, hs3, hs4]
  simp [hnet, hfc]

theorem stepsDeny_past_ok (cwd : List String) (hostname : String → Option String)
    (reg : Registry) (ctx : RuntimeContext) (roots : List (List String))
    (an : Bool) (al : List String) (pre post : List PyVal) (step : PyVal)
    (r : PolicyResult)
    (hpre : ∀ s ∈ pre, stepDeny cwd hostname reg ctx roots an al s = Option.none)
    (hstep : stepDeny cwd hostname reg ctx roots an al step = some r) :
    stepsDeny cwd hostname reg ctx roots an al (pre ++ step :: post) = some r := by
  induction pre with
  | nil => simp [stepsDeny, hstep]
  | cons s rest ih =>
    have hs := hpre s (by simp)
    simp only [List.cons_append]
    unfold stepsDeny
    rw [hs]
    exact ih (fun x hx => hpre x (by simp [hx]))

theorem evaluate_steps_phase (cwd : List String) (hostname : String → Option String)
    (reg : Registry) (ctx : RuntimeContext) (plan : PyVal)
    (h1 : (dget plan "intent").isDict = true)
    (h2 : (dget (dget plan "intent") "scope").isDict = true)
    (h3 : (dget (dget (dget plan "intent") "scope") "fs_roots").isList = true)
    (h4 : (listOf (dget (dget (dget plan "intent") "scope") "fs_roots")).length ≥ 1)
    (h5 : ¬ (normalize_roots cwd (listOf (dgetD (dget (dget plan "intent") "scope")
      "fs_roots" (PyVal.list [])))).length < 1)
    (h6a : (if isNoneVal (dgetD (dget (dget plan "intent") "scope")
        "network_hosts_allowlist" (PyVal.list [])) then PyVal.list []
      else dgetD (dget (dget plan "intent") "scope")
        "network_hosts_allowlist" (PyVal.list [])).isList = true)
    (h6b : (listOf (if isNoneVal (dgetD (dget (dget plan "intent") "scope")
        "network_hosts_allowlist" (PyVal.list [])) then PyVal.list []
      else dgetD (dget (dget plan "intent") "scope")
        "network_hosts_allowlist" (PyVal.list []))).all isNonEmptyStr = true)
    (h7 : (dget plan "steps").isList = true)
    (h8 : (listOf (dget plan "steps")).length ≥ 1) :
    evaluate cwd hostname reg ctx plan =
      match stepsDeny cwd hostname reg ctx
        (normalize_roots cwd (listOf (dgetD (dget (dget plan "intent") "scope")
          "fs_roots" (PyVal.list []))))
        (pyTruthy (dgetD (dget (dget plan "intent") "scope") "allow_network" (PyVal.bool false)))
        ((listOf (if isNoneVal (dgetD (dget (dget plan "intent") "scope")
            "network_hosts_allowlist" (PyVal.list [])) then PyVal.list []
          else dgetD (dget (dget plan "intent") "scope")
            "network_hosts_allowlist" (PyVal.list []))).map strOf)
        (listOf (dget plan "steps")) with
      | some r => r
      | Option.none => allowResult := by
  unfold evaluate
  dsimp only []
  rw [if_neg (by simp [h1]), if_neg (by simp [h2, h3, h4]), if_neg h5,
    if_neg (by simp [h6a, h6b]), if_neg (by simp [h7, h8])]


/-- C1: amended out-of-bounds enforcement. If the plan passes schema
validation and the policy prelude (intent object, scope with a normalizable
non-empty fs_roots, well-formed allowlist, non-empty steps list), every step
before the offending one passes the per-step rules, and the offending step
names a known fs.-prefixed tool, passes the network block, and carries a
path/from/to string arg outside every declared root, then evaluate denies
with exactly [scope.out_of_bounds] and run_plan emits intent_received,
policy_decision(deny), step_denied, raising policy.denied with no tool
implementation invoked.  (The per-step loop makes the claim's original
unconditional form false: an earlier step's destructive or dry-run rule can
deny first with a different code.) -/
theorem C1_out_of_bounds (cwd : List String) (hostname : String → Option String)
    (reg : Registry) (schemaErrors : PyVal → List String)
    (callTool : String → PyVal → Bool → Except String PyVal)
    (ctx : RuntimeContext) (plan : PyVal) (pre post : List PyVal) (step td : PyVal)
    (hsch : schemaErrors plan = [])
    (h1 : (dget plan "intent").isDict = true)
    (h2 : (dget (dget plan "intent") "scope").isDict = true)
    (h3 : (dget (dget (dget plan "intent") "scope") "fs_roots").isList = true)
    (h4 : (listOf (dget (dget (dget plan "intent") "scope") "fs_roots")).length ≥ 1)
    (h5 : ¬ (normalize_roots cwd (listOf (dgetD (dget (dget plan "intent") "scope")
      "fs_roots" (PyVal.list [])))).length < 1)
    (h6a : (if isNoneVal (dgetD (dget (dget plan "intent") "scope")
        "network_hosts_allowlist" (PyVal.list [])) then PyVal.list []
      else dgetD (dget (dget plan "intent") "scope")
        "network_hosts_allowlist" (PyVal.list [])).isList = true)
    (h6b : (listOf (if isNoneVal (dgetD (dget (dget plan "intent") "scope")
        "network_hosts_allowlist" (PyVal.list [])) then PyVal.list []
      else dgetD (dget (dget plan "intent") "scope")
        "network_hosts_allowlist" (PyVal.list []))).all isNonEmptyStr = true)
    (h7 : (dget plan "steps").isList = true)
    (h8 : (listOf (dget plan "steps")).length ≥ 1)
    (hsteps : listOf (dget plan "steps") = pre ++ step :: post)
    (hpre : ∀ s ∈ pre, stepDeny cwd hostname reg ctx
      (normalize_roots cwd (listOf (dgetD (dget (dget plan "intent") "scope")
        "fs_roots" (PyVal.list []))))
      (pyTruthy (dgetD (dget (dget plan "intent") "scope") "allow_network" (PyVal.bool false)))
      ((listOf (if isNoneVal (dgetD (dget (dget plan "intent") "scope")
          "network_hosts_allowlist" (PyVal.list [])) then PyVal.list []
        else dgetD (dget (dget plan "intent") "scope")
          "network_hosts_allowlist" (PyVal.list []))).map strOf) s = Option.none)
    (hs1 : step.isDict = true)
    (hs2 : (dget step "tool").isDict = true)
    (hs3 : isNonEmptyStr (dget (dget step "tool") "tool_id") = true)
    (hs4 : regGet reg (strOf (dget (dget step "tool") "tool_id")) = some td)
    (hfs : sStartsWith (strOf (dget (dget step "tool") "tool_id")) "fs." = true)
    (hnet : netCheck hostname
      (pyTruthy (dgetD (dget (dget plan "intent") "scope") "allow_network" (PyVal.bool false)))
      ((listOf (if isNoneVal (dgetD (dget (dget plan "intent") "scope")
          "network_hosts_allowlist" (PyVal.list [])) then PyVal.list []
        else dgetD (dget (dget plan "intent") "scope")
          "network_hosts_allowlist" (PyVal.list []))).map strOf)
      (dget step "tool") td (strOf (dget (dget step "tool") "tool_id")) = Option.none)
    (ha : (dgetD (dget step "tool") "args" (PyVal.dict [])).isDict = true)
    (hbad : ∃ p ∈ ((["path", "from", "to"].map (dget (dgetD (dget step "tool") "args"
        (PyVal.dict [])))).filter isNonEmptyStr).map strOf,
      is_within_any_root cwd p
        (normalize_roots cwd (listOf (dgetD (dget (dget plan "intent") "scope")
          "fs_roots" (PyVal.list [])))) = false) :
    (evaluate cwd hostname reg ctx plan).decision = "deny" ∧
    (evaluate cwd hostname reg ctx plan).reason_codes = ["scope.out_of_bounds"] ∧
    (run_plan cwd hostname reg schemaErrors callTool ctx plan).events =
      [TEvent.intent_received,
        TEvent.policy_decision "deny" ["scope.out_of_bounds"], TEvent.step_denied] ∧
    (run_plan cwd hostname reg schemaErrors callTool ctx plan).calls = [] ∧
    (run_plan cwd hostname reg schemaErrors callTool ctx plan).result =
      Except.error "policy.denied" := by
  obtain ⟨m, hfc⟩ := fsCheck_out_of_bounds cwd _ (dget step "tool")
    (strOf (dget (dget step "tool") "tool_id")) hfs ha hbad
  have hsd := stepDeny_fs_some cwd hostname reg ctx _ _ _ step td _
    hs1 hs2 hs3 hs4 hnet hfc
  have hall := stepsDeny_past_ok cwd hostname reg ctx _ _ _ pre post step _ hpre hsd
  have hev : evaluate cwd hostname reg ctx plan =
      { decision := "deny", reason_codes := ["scope.out_of_bounds"], summary := some m } := by
    rw [evaluate_steps_phase cwd hostname reg ctx plan h1 h2 h3 h4 h5 h6a h6b h7 h8,
      hsteps, hall]
  refine ⟨by rw [hev], by rw [hev], ?_, ?_, ?_⟩ <;>
    · unfold run_plan
      dsimp only []
      rw [if_neg (by simp [hsch]), hev]
      simp


/-- C1 counterexample: the per-step loop is ordered, so a plan whose second
step has an out-of-bounds path is denied with dry_run.step_not_marked_ok,
not scope.out_of_bounds, because the first (in-bounds) step sets
dry_run_ok=false and the default context has dry_run=true. -/
theorem C1_counterexample :
    sStartsWith "fs.list" "fs." = true ∧
    is_within_any_root [] "/etc/passwd" (normalize_roots [] [PyVal.str "/tmp"]) = false ∧
    (evaluate [] hostNone bootstrapRegistry {}
      (mkPlan ["/tmp"] [fsListStep "s1" "/tmp" false, fsListStep "s2" "/etc/passwd" true])).decision
      = "deny" ∧
    (evaluate [] hostNone bootstrapRegistry {}
      (mkPlan ["/tmp"] [fsListStep "s1" "/tmp" false, fsListStep "s2" "/etc/passwd" true])).reason_codes
      = ["dry_run.step_not_marked_ok"] :=
  ⟨rfl, rfl, rfl, rfl⟩

theorem C1_out_of_bounds_witness :
    (evaluate [] hostNone bootstrapRegistry {}
      (mkPlan ["/tmp"] [fsListStep "s1" "/etc/passwd" true])).decision = "deny" ∧
    (evaluate [] hostNone bootstrapRegistry {}
      (mkPlan ["/tmp"] [fsListStep "s1" "/etc/passwd" true])).reason_codes =
      ["scope.out_of_bounds"] ∧
    (run_plan [] hostNone bootstrapRegistry schemaOkAll callOk {}
      (mkPlan ["/tmp"] [fsListStep "s1" "/etc/passwd" true])).events =
      [TEvent.intent_received,
        TEvent.policy_decision "deny" ["scope.out_of_bounds"], TEvent.step_denied] ∧
    (run_plan [] hostNone bootstrapRegistry schemaOkAll callOk {}
      (mkPlan ["/tmp"] [fsListStep "s1" "/etc/passwd" true])).calls = [] ∧
    (run_plan [] hostNone bootstrapRegistry schemaOkAll callOk {}
      (mkPlan ["/tmp"] [fsListStep "s1" "/etc/passwd" true])).result =
      Except.error "policy.denied" :=
  C1_out_of_bounds [] hostNone bootstrapRegistry schemaOkAll callOk {}
    (mkPlan ["/tmp"] [fsListStep "s1" "/etc/passwd" true]) [] []
    (fsListStep "s1" "/etc/passwd" true)
    (regToolDef "fs.list" "List directory entries" "filesystem" true
      (objSchema [("path", "string")] ["path"]))
    rfl rfl rfl rfl (by decide) (by decide) rfl rfl rfl (by decide) rfl
    (by simp) rfl rfl rfl rfl rfl rfl rfl ⟨"/etc/passwd", by decide, by decide⟩


theorem execSteps_ok_events (reg : Registry)
    (callTool : String → PyVal → Bool → Except String PyVal) (dr : Bool)
    (steps : List PyVal)
    (hws : ∀ s ∈ steps,
      s.isDict = true ∧ isNonEmptyStr (dget s "step_id") = true ∧
      (dget s "tool").isDict = true ∧
      isNonEmptyStr (dget (dget s "tool") "tool_id") = true ∧
      (dget (dget s "tool") "args").isDict = true ∧
      ∃ td, regGet reg (strOf (dget (dget s "tool") "tool_id")) = some td ∧
        schemaValidate (dgetD td "args_schema" (PyVal.dict []))
          (dget (dget s "tool") "args") = true ∧
        ∃ out, callTool (strOf (dget (dget s "tool") "tool_id"))
          (dget (dget s "tool") "args") dr = Except.ok out) :
    (execSteps reg callTool dr steps).events =
      steps.flatMap (fun s =>
        [TEvent.step_started (strOf (dget s "step_id")),
         TEvent.step_finished (strOf (dget s "step_id"))]) ∧
    ∃ rs, (execSteps reg callTool dr steps).result = Except.ok rs := by
  induction steps with
  | nil => exact ⟨rfl, [], rfl⟩
  | cons s rest ih =>
    obtain ⟨w1, w2, w3, w4, w5, td, w6, w7, out, w8⟩ := hws s (by simp)
    obtain ⟨ihev, rs, ihres⟩ := ih (fun x hx => hws x (by simp [hx]))
    unfold execSteps
    rw [if_neg (by simp [w1])]
    dsimp only []
    rw [if_neg (by simp [w2]), if_neg (by simp [w3]), if_neg (by simp [w4]),
      if_neg (by simp [w5]), w6]
    dsimp only []
    rw [if_neg (by simp [w7]), w8]
    dsimp only []
    refine ⟨?_, ?_⟩
    · simp [ihev]
    · exact ⟨_, by rw [ihres]; rfl⟩

theorem execute_ok_events (reg : Registry)
    (callTool : String → PyVal → Bool → Except String PyVal)
    (ctx : RuntimeContext) (plan : PyVal)
    (hp1 : plan.isDict = true)
    (hp2 : isNonEmptyStr (dget plan "plan_id") = true)
    (h7 : (dget plan "steps").isList = true)
    (h8 : (listOf (dget plan "steps")).length ≥ 1)
    (hws : ∀ s ∈ listOf (dget plan "steps"),
      s.isDict = true ∧ isNonEmptyStr (dget s "step_id") = true ∧
      (dget s "tool").isDict = true ∧
      isNonEmptyStr (dget (dget s "tool") "tool_id") = true ∧
      (dget (dget s "tool") "args").isDict = true ∧
      ∃ td, regGet reg (strOf (dget (dget s "tool") "tool_id")) = some td ∧
        schemaValidate (dgetD td "args_schema" (PyVal.dict []))
          (dget (dget s "tool") "args") = true ∧
        ∃ out, callTool (strOf (dget (dget s "tool") "tool_id"))
          (dget (dget s "tool") "args") ctx.dry_run = Except.ok out) :
    (execute reg callTool ctx plan).events =
      TEvent.plan_generated ::
        ((listOf (dget plan "steps")).flatMap (fun s =>
          [TEvent.step_started (strOf (dget s "step_id")),
           TEvent.step_finished (strOf (dget s "step_id"))])) ++ [TEvent.run_finished] := by
  obtain ⟨hev, rs, hres⟩ := execSteps_ok_events reg callTool ctx.dry_run
    (listOf (dget plan "steps")) hws
  unfold execute
  rw [if_neg (by simp [hp1]), if_neg (by simp [hp2])]
  dsimp only []
  rw [if_neg (by simp [h7, h8]), hres]
  dsimp only []
  rw [hev]


/-- C5: amended trace order. For a plan that passes schema validation, is
allowed by policy, and whose steps are well-formed with registered tools,
valid args and succeeding implementations, Kernel.run_plan emits exactly
intent_received, policy_decision(allow, [scope.ok, tools.ok]),
plan_generated, then one step_started/step_finished pair per step in
declaration order, then run_finished.  plan_generated is emitted by the
executor after the policy decision, not between schema validation and the
policy_decision event as the claim orders it. -/
theorem C5_trace_order (cwd : List String) (hostname : String → Option String)
    (reg : Registry) (schemaErrors : PyVal → List String)
    (callTool : String → PyVal → Bool → Except String PyVal)
    (ctx : RuntimeContext) (plan : PyVal)
    (hsch : schemaErrors plan = [])
    (hev : evaluate cwd hostname reg ctx plan = allowResult)
    (hp1 : plan.isDict = true)
    (hp2 : isNonEmptyStr (dget plan "plan_id") = true)
    (h7 : (dget plan "steps").isList = true)
    (h8 : (listOf (dget plan "steps")).length ≥ 1)
    (hws : ∀ s ∈ listOf (dget plan "steps"),
      s.isDict = true ∧ isNonEmptyStr (dget s "step_id") = true ∧
      (dget s "tool").isDict = true ∧
      isNonEmptyStr (dget (dget s "tool") "tool_id") = true ∧
      (dget (dget s "tool") "args").isDict = true ∧
      ∃ td, regGet reg (strOf (dget (dget s "tool") "tool_id")) = some td ∧
        schemaValidate (dgetD td "args_schema" (PyVal.dict []))
          (dget (dget s "tool") "args") = true ∧
        ∃ out, callTool (strOf (dget (dget s "tool") "tool_id"))
          (dget (dget s "tool") "args") ctx.dry_run = Except.ok out) :
    (run_plan cwd hostname reg schemaErrors callTool ctx plan).events =
      TEvent.intent_received ::
      TEvent.policy_decision "allow" ["scope.ok", "tools.ok"] ::
      TEvent.plan_generated ::
      ((listOf (dget plan "steps")).flatMap (fun s =>
        [TEvent.step_started (strOf (dget s "step_id")),
         TEvent.step_finished (strOf (dget s "step_id"))])) ++ [TEvent.run_finished] := by
  have hx := execute_ok_events reg callTool ctx plan hp1 hp2 h7 h8 hws
  unfold run_plan
  dsimp only []
  rw [if_neg (by simp [hsch]), hev, if_neg (by simp [allowResult]), hx]
  simp [allowResult]

/-- C5 counterexample: on a concrete allowed single-step plan the trace is
intent_received, policy_decision(allow), plan_generated, step pair,
run_finished; it is not the claimed order with plan_generated before
policy_decision. -/
theorem C5_counterexample :
    (run_plan [] hostNone bootstrapRegistry schemaOkAll callOk {}
      (mkPlan ["/tmp"] [fsListStep "s1" "/tmp" true])).events =
      [TEvent.intent_received,
        TEvent.policy_decision "allow" ["scope.ok", "tools.ok"],
        TEvent.plan_generated,
        TEvent.step_started "s1", TEvent.step_finished "s1", TEvent.run_finished] ∧
    (run_plan [] hostNone bootstrapRegistry schemaOkAll callOk {}
      (mkPlan ["/tmp"] [fsListStep "s1" "/tmp" true])).events ≠
      [TEvent.intent_received, TEvent.plan_generated,
        TEvent.policy_decision "allow" ["scope.ok", "tools.ok"],
        TEvent.step_started "s1", TEvent.step_finished "s1", TEvent.run_finished] :=
  ⟨rfl, by decide⟩

theorem C5_trace_order_witness :
    (run_plan [] hostNone bootstrapRegistry schemaOkAll callOk {}
      (mkPlan ["/tmp"] [fsListStep "s2" "/tmp" true])).events =
      TEvent.intent_received ::
      TEvent.policy_decision "allow" ["scope.ok", "tools.ok"] ::
      TEvent.plan_generated ::
      ((listOf (dget (mkPlan ["/tmp"] [fsListStep "s2" "/tmp" true]) "steps")).flatMap
        (fun s => [TEvent.step_started (strOf (dget s "step_id")),
          TEvent.step_finished (strOf (dget s "step_id"))])) ++ [TEvent.run_finished] :=
  C5_trace_order [] hostNone bootstrapRegistry schemaOkAll callOk {}
    (mkPlan ["/tmp"] [fsListStep "s2" "/tmp" true])
    rfl rfl rfl rfl rfl (by decide)
    (by
      intro s hs
      rw [show listOf (dget (mkPlan ["/tmp"] [fsListStep "s2" "/tmp" true]) "steps") =
        [fsListStep "s2" "/tmp" true] from rfl, List.mem_singleton] at hs
      subst hs
      exact ⟨rfl, rfl, rfl, rfl, rfl,
        regToolDef "fs.list" "List directory entries" "filesystem" true
          (objSchema [("path", "string")] ["path"]), rfl, rfl, PyVal.dict [], rfl⟩)

end Nucleus